import Mathlib

/-!
# Verification of the integrations service of the Full-Stack Agentic Voice Platform

Shallow embedding, in Lean 4, of the credential vault, the integration
registry, the OAuth connect/complete state machine, the token-refreshing
provider clients, the unified booking orchestrator and the MCP tool bridge
of the repository, together with proofs and refutations of the spec's
claims about them.

Conventions of the embedding:
* Python dictionaries of credentials are association lists (`CredMap`);
  `dict.get / [k] = v / pop` become `cmGet / cmSet / cmPop`, which keep
  Python's insertion-order semantics (updating an existing key keeps its
  position, a new key is appended, `pop` removes the key).
* SQLAlchemy rows are `IntegrationRow`; a session is a `List IntegrationRow`;
  `query(...).filter(...).first()` is `List.find?` with the translated filter,
  and mutating the found row then committing is `updateFirst`.
* Every external network call is an explicit environment value (an
  `Except`/response datum passed in), so a handler is a pure function of its
  request and its environment.
* `raise HTTPException(status, detail)` and unhandled exceptions that the
  framework turns into a 500 are `Except.error (status, detail)`.
* The encrypted `config` column is modelled by the credential map it decrypts
  to; the encrypt/decrypt pair itself is verified separately (the Credential
  Vault section at the end of this file).
-/

namespace VoicePlatform

/-- A credential value stored in an integration's (decrypted) config:
the Python code stores strings, booleans and `None` in these dictionaries. -/
inductive CVal : Type where
  | s (v : String)
  | b (v : Bool)
  | nullv
deriving DecidableEq

/-- A decrypted credential dictionary: keys in insertion order. -/
abbrev CredMap := List (String × CVal)

/-- `dict.get(k)`: the value of the first (only) binding of `k`, if any. -/
def cmGet (m : CredMap) (k : String) : Option CVal :=
  (m.find? (fun kv => kv.1 == k)).map (fun kv => kv.2)

/-- `dict[k] = v`: update the binding in place if `k` is present
(keeping its position), otherwise append it. -/
def cmSet (m : CredMap) (k : String) (v : CVal) : CredMap :=
  if m.any (fun kv => kv.1 == k) then
    m.map (fun kv => if kv.1 == k then (k, v) else kv)
  else
    m ++ [(k, v)]

/-- `dict.pop(k, None)`: remove the binding of `k` if present. -/
def cmPop (m : CredMap) (k : String) : CredMap :=
  m.filter (fun kv => !(kv.1 == k))

/-- `dict.get(k)` seen as a string; non-string and absent values read as `""`
(the code only ever reads string-valued keys this way). -/
def cmGetStr (m : CredMap) (k : String) : String :=
  match cmGet m k with
  | some (CVal.s v) => v
  | _ => ""

theorem find?_filter_comm {α : Type} (l : List α) (p q : α → Bool)
    (h : ∀ x, p x = true → q x = true) : (l.filter q).find? p = l.find? p := by
  induction l with
  | nil => rfl
  | cons hd tl ih =>
      by_cases hq : q hd = true
      · rw [List.filter_cons_of_pos hq]
        by_cases hp : p hd = true
        · rw [List.find?_cons_of_pos _ hp, List.find?_cons_of_pos _ hp]
        · rw [List.find?_cons_of_neg _ (by simp [hp]), List.find?_cons_of_neg _ (by simp [hp]), ih]
      · have hp : ¬ p hd = true := fun hc => hq (h hd hc)
        rw [List.filter_cons_of_neg (by simp [hq]), ih,
          List.find?_cons_of_neg _ (by simp [hp])]

theorem cmGet_cmPop_self (m : CredMap) (k : String) : cmGet (cmPop m k) k = none := by
  unfold cmGet cmPop
  rw [List.find?_eq_none.mpr]
  · rfl
  · intro x hx
    have hmem := (List.mem_filter.mp hx).2
    simp only [Bool.not_eq_eq_eq_not, Bool.not_true, beq_eq_false_iff_ne, ne_eq] at hmem
    simp [hmem]

theorem cmGet_cmPop_ne (m : CredMap) (k k2 : String) (h : k ≠ k2) :
    cmGet (cmPop m k2) k = cmGet m k := by
  unfold cmGet cmPop
  rw [find?_filter_comm]
  intro x hx
  simp only [beq_iff_eq] at hx
  simp [hx, h]

/-- One row of the `integrations` table. -/
structure IntegrationRow where
  id : Nat
  organization_id : Nat
  name : String
  type : String
  provider : String
  config : Option CredMap
  is_active : Bool
  is_connected : Bool
  last_sync_at : Option Nat
deriving DecidableEq

/-- The filter `organization_id == org AND type == ty AND provider == prov`. -/
def matchKey (org : Nat) (ty prov : String) (r : IntegrationRow) : Bool :=
  r.organization_id == org && r.type == ty && r.provider == prov

/-- `query.filter(p).first()` followed by mutating the found row and
committing: rewrite the first row satisfying `p`, leave the rest alone. -/
def updateFirst (db : List IntegrationRow) (p : IntegrationRow → Bool)
    (f : IntegrationRow → IntegrationRow) : List IntegrationRow :=
  match db with
  | [] => []
  | r :: rest => if p r then f r :: rest else r :: updateFirst rest p f

theorem find?_updateFirst (db : List IntegrationRow) (p : IntegrationRow → Bool)
    (f : IntegrationRow → IntegrationRow) (hf : ∀ r, p r = true → p (f r) = true) :
    (updateFirst db p f).find? p = (db.find? p).map f := by
  induction db with
  | nil => rfl
  | cons r rest ih =>
      by_cases h : p r = true
      · simp [updateFirst, h, List.find?, hf r h]
      · simp only [updateFirst, h]
        simp only [Bool.not_eq_true] at h
        simp [List.find?, h, ih]

theorem countP_updateFirst (db : List IntegrationRow) (p : IntegrationRow → Bool)
    (f : IntegrationRow → IntegrationRow) (hf : ∀ r, p r = true → p (f r) = true) :
    (updateFirst db p f).countP p = db.countP p := by
  induction db with
  | nil => rfl
  | cons r rest ih =>
      by_cases h : p r = true
      · simp [updateFirst, h, List.countP_cons, hf r h]
      · simp only [updateFirst, h]
        simp only [Bool.not_eq_true] at h
        simp [List.countP_cons, h, ih]

theorem updateFirst_no_match (db : List IntegrationRow) (p : IntegrationRow → Bool)
    (f : IntegrationRow → IntegrationRow) (h : db.find? p = none) :
    updateFirst db p f = db := by
  induction db with
  | nil => rfl
  | cons r rest ih =>
      simp only [List.find?] at h
      by_cases hr : p r = true
      · simp [hr] at h
      · simp only [Bool.not_eq_true] at hr
        simp only [hr] at h
        simp [updateFirst, hr, ih h]

theorem updateFirst_fixed (db : List IntegrationRow) (p : IntegrationRow → Bool)
    (f : IntegrationRow → IntegrationRow)
    (h : ∀ r, db.find? p = some r → f r = r) :
    updateFirst db p f = db := by
  induction db with
  | nil => rfl
  | cons r rest ih =>
      by_cases hr : p r = true
      · have : f r = r := h r (by simp [List.find?, hr])
        simp [updateFirst, hr, this]
      · simp only [Bool.not_eq_true] at hr
        simp only [updateFirst, hr]
        simp only [Bool.false_eq_true, if_false, List.cons.injEq, true_and]
        exact ih (fun r2 h2 => h r2 (by simp [List.find?, hr, h2]))

/-! ## Connect endpoints of the Integration Registry

`connect_calendly` and `connect_google_calendar` (interactive OAuth: save
client credentials plus a fresh CSRF state, `is_connected = False` until the
exchange completes) and `store_zoom_credentials` (server-to-server OAuth:
credentials are immediately usable, `is_connected = True`).

Randomness (`secrets.token_urlsafe`), timestamps (`datetime.utcnow`), the
authenticated user and the id given to a newly created row are explicit
arguments. -/

/-- Body of `POST /integrations/{calendly,google-calendar}/connect`:
the handlers read it with `request.get(...)`, so fields may be absent. -/
structure ConnectOAuthRequest where
  client_id : Option String
  client_secret : Option String
  environment : Option String
deriving DecidableEq

/-- `request.get(k)` stored into a credential dict: `None` when absent. -/
def oStr (v : Option String) : CVal :=
  match v with
  | some s => CVal.s s
  | none => CVal.nullv

/-- Result of a connect endpoint (the fields the claims are about). -/
structure ConnectResult where
  success : Bool
  state : String
  integration_id : Nat
deriving DecidableEq

/-- The credential dict written by `connect_calendly` (calendly.py lines 300-307). -/
def calendlyCredentialsData (req : ConnectOAuthRequest) (state sub now : String) : CredMap :=
  [("client_id", oStr req.client_id),
   ("client_secret", oStr req.client_secret),
   ("environment", CVal.s (req.environment.getD "production")),
   ("oauth_state", CVal.s state),
   ("oauth_user_id", CVal.s sub),
   ("oauth_initiated_at", CVal.s now)]

/-- The row mutation performed by an interactive-OAuth connect when the row
already exists: overwrite `config`, force `is_active = True`,
`is_connected = False`. -/
def oauthConnectUpdate (creds : CredMap) (r : IntegrationRow) : IntegrationRow :=
  { r with config := some creds, is_active := true, is_connected := false }

/-- The row mutation performed by `store_zoom_credentials` when the row
already exists: overwrite `config`, set `is_connected = True`
(`is_active` untouched). -/
def zoomStoreUpdate (creds : CredMap) (r : IntegrationRow) : IntegrationRow :=
  { r with config := some creds, is_connected := true }

theorem matchKey_oauthConnectUpdate (org : Nat) (ty pv : String) (c : CredMap)
    (r : IntegrationRow) (h : matchKey org ty pv r = true) :
    matchKey org ty pv (oauthConnectUpdate c r) = true := by
  simpa [matchKey, oauthConnectUpdate] using h

theorem matchKey_zoomStoreUpdate (org : Nat) (ty pv : String) (c : CredMap)
    (r : IntegrationRow) (h : matchKey org ty pv r = true) :
    matchKey org ty pv (zoomStoreUpdate c r) = true := by
  simpa [matchKey, zoomStoreUpdate] using h

def newCalendlyRow (org freshId : Nat) (creds : CredMap) : IntegrationRow :=
  { id := freshId, organization_id := org, name := "Calendly", type := "meeting",
    provider := "calendly", config := some creds, is_active := true,
    is_connected := false, last_sync_at := none }

/-- `POST /integrations/calendly/connect` (calendly.py lines 264-361): look up
the row by (org, "meeting", "calendly"); if found overwrite `config` and force
`is_active = True`, `is_connected = False`; otherwise create the row. -/
def connect_calendly (db : List IntegrationRow) (org : Nat) (req : ConnectOAuthRequest)
    (state sub now : String) (freshId : Nat) : List IntegrationRow × ConnectResult :=
  let creds := calendlyCredentialsData req state sub now
  match db.find? (matchKey org "meeting" "calendly") with
  | some existing =>
      (updateFirst db (matchKey org "meeting" "calendly") (oauthConnectUpdate creds),
       { success := true, state := state, integration_id := existing.id })
  | none =>
      (db ++ [newCalendlyRow org freshId creds],
       { success := true, state := state, integration_id := freshId })

/-- The credential dict written by `connect_google_calendar`
(google_calendar.py lines 218-224): no `environment` field. -/
def googleCredentialsData (req : ConnectOAuthRequest) (state sub now : String) : CredMap :=
  [("client_id", oStr req.client_id),
   ("client_secret", oStr req.client_secret),
   ("oauth_state", CVal.s state),
   ("oauth_user_id", CVal.s sub),
   ("oauth_initiated_at", CVal.s now)]

def newGoogleCalendarRow (org freshId : Nat) (creds : CredMap) : IntegrationRow :=
  { id := freshId, organization_id := org, name := "Google Calendar", type := "meeting",
    provider := "google_calendar", config := some creds, is_active := true,
    is_connected := false, last_sync_at := none }

/-- `POST /integrations/google-calendar/connect` (google_calendar.py lines
183-282): same create-or-update shape as `connect_calendly`. -/
def connect_google_calendar (db : List IntegrationRow) (org : Nat) (req : ConnectOAuthRequest)
    (state sub now : String) (freshId : Nat) : List IntegrationRow × ConnectResult :=
  let creds := googleCredentialsData req state sub now
  match db.find? (matchKey org "meeting" "google_calendar") with
  | some existing =>
      (updateFirst db (matchKey org "meeting" "google_calendar") (oauthConnectUpdate creds),
       { success := true, state := state, integration_id := existing.id })
  | none =>
      (db ++ [newGoogleCalendarRow org freshId creds],
       { success := true, state := state, integration_id := freshId })

/-- Body of `POST /integrations/zoom` (a pydantic model: all fields required). -/
structure ZoomCredentialsRequest where
  account_id : String
  client_id : String
  client_secret : String
deriving DecidableEq

/-- The credential dict written by `store_zoom_credentials` (zoom.py lines 175-179). -/
def zoomCredentialsData (req : ZoomCredentialsRequest) : CredMap :=
  [("account_id", CVal.s req.account_id),
   ("client_id", CVal.s req.client_id),
   ("client_secret", CVal.s req.client_secret)]

def newZoomRow (org freshId : Nat) (creds : CredMap) : IntegrationRow :=
  { id := freshId, organization_id := org, name := "Zoom Meetings", type := "meeting",
    provider := "zoom", config := some creds, is_active := true,
    is_connected := true, last_sync_at := none }

/-- `POST /integrations/zoom` (zoom.py lines 156-240): look up the row by
(org, "meeting", "zoom"); if found overwrite `config` and set
`is_connected = True` (leaving `is_active` untouched); otherwise create the
row with both flags true. -/
def store_zoom_credentials (db : List IntegrationRow) (org : Nat)
    (req : ZoomCredentialsRequest) (freshId : Nat) : List IntegrationRow × Nat :=
  let creds := zoomCredentialsData req
  match db.find? (matchKey org "meeting" "zoom") with
  | some existing =>
      (updateFirst db (matchKey org "meeting" "zoom") (zoomStoreUpdate creds),
       existing.id)
  | none =>
      (db ++ [newZoomRow org freshId creds],
       freshId)

theorem matchKey_newCalendly (org fid : Nat) (c : CredMap) :
    matchKey org "meeting" "calendly" (newCalendlyRow org fid c) = true := by
  simp [matchKey, newCalendlyRow]

theorem matchKey_update_irrel (org : Nat) (ty pv : String) (r : IntegrationRow)
    (c : Option CredMap) (a b : Bool) :
    matchKey org ty pv { r with config := c, is_active := a, is_connected := b }
      = matchKey org ty pv r := by
  simp [matchKey]

/-- C7 (calendly half): starting from a database with no
(org, "meeting", "calendly") row, two `connect_calendly` calls leave exactly
one such row; it carries the second call's credentials and the id created by
the first call; and a retry with identical input is a no-op. -/
theorem connect_calendly_single_row (db : List IntegrationRow) (org : Nat)
    (req1 req2 : ConnectOAuthRequest) (s1 s2 sub1 sub2 now1 now2 : String)
    (fid1 fid2 : Nat)
    (h : db.find? (matchKey org "meeting" "calendly") = none) :
    (((connect_calendly (connect_calendly db org req1 s1 sub1 now1 fid1).1
        org req2 s2 sub2 now2 fid2).1).countP (matchKey org "meeting" "calendly") = 1)
    ∧ (∃ r, ((connect_calendly (connect_calendly db org req1 s1 sub1 now1 fid1).1
          org req2 s2 sub2 now2 fid2).1).find? (matchKey org "meeting" "calendly") = some r
        ∧ r.config = some (calendlyCredentialsData req2 s2 sub2 now2) ∧ r.id = fid1)
    ∧ connect_calendly (connect_calendly db org req1 s1 sub1 now1 fid1).1
        org req1 s1 sub1 now1 fid1 = connect_calendly db org req1 s1 sub1 now1 fid1 := by
  have hcount : db.countP (matchKey org "meeting" "calendly") = 0 := by
    rw [List.countP_eq_zero]
    exact fun r hr => by
      have hx := List.find?_eq_none.mp h r hr
      simp only [Bool.not_eq_true] at hx
      simp [hx]
  have hrow := matchKey_newCalendly org fid1 (calendlyCredentialsData req1 s1 sub1 now1)
  have hdb1 : (connect_calendly db org req1 s1 sub1 now1 fid1).1
      = db ++ [newCalendlyRow org fid1 (calendlyCredentialsData req1 s1 sub1 now1)] := by
    simp [connect_calendly, h]
  have hfind1 : (db ++ [newCalendlyRow org fid1 (calendlyCredentialsData req1 s1 sub1 now1)]).find?
      (matchKey org "meeting" "calendly")
      = some (newCalendlyRow org fid1 (calendlyCredentialsData req1 s1 sub1 now1)) := by
    rw [List.find?_append, h]
    simp [List.find?, hrow]
  refine ⟨?_, ?_, ?_⟩
  · rw [hdb1]
    simp only [connect_calendly, hfind1]
    rw [countP_updateFirst _ _ (oauthConnectUpdate (calendlyCredentialsData req2 s2 sub2 now2))
        (fun r hr => matchKey_oauthConnectUpdate org "meeting" "calendly" _ r hr),
      List.countP_append, hcount]
    simp [hrow]
  · rw [hdb1]
    simp only [connect_calendly, hfind1]
    rw [find?_updateFirst _ _ (oauthConnectUpdate (calendlyCredentialsData req2 s2 sub2 now2))
        (fun r hr => matchKey_oauthConnectUpdate org "meeting" "calendly" _ r hr), hfind1]
    exact ⟨_, rfl, rfl, rfl⟩
  · conv_lhs => rw [hdb1]
    conv_rhs => rw [connect_calendly]
    rw [h]
    simp only [connect_calendly, hfind1]
    rw [updateFirst_fixed]
    · rfl
    · intro r hr
      rw [hfind1] at hr
      cases hr
      rfl

theorem store_zoom_credentials_single_row (db : List IntegrationRow) (org : Nat)
    (zreq1 zreq2 : ZoomCredentialsRequest) (zfid1 zfid2 : Nat)
    (hz : db.find? (matchKey org "meeting" "zoom") = none) :
    ((store_zoom_credentials (store_zoom_credentials db org zreq1 zfid1).1
        org zreq2 zfid2).1.countP (matchKey org "meeting" "zoom") = 1)
    ∧ (∃ r, (store_zoom_credentials (store_zoom_credentials db org zreq1 zfid1).1
          org zreq2 zfid2).1.find? (matchKey org "meeting" "zoom") = some r
        ∧ r.config = some (zoomCredentialsData zreq2) ∧ r.id = zfid1)
    ∧ store_zoom_credentials (store_zoom_credentials db org zreq1 zfid1).1 org zreq1 zfid1
        = store_zoom_credentials db org zreq1 zfid1 := by
  have hcount : db.countP (matchKey org "meeting" "zoom") = 0 := by
    rw [List.countP_eq_zero]
    exact fun r hr => by
      have hx := List.find?_eq_none.mp hz r hr
      simp only [Bool.not_eq_true] at hx
      simp [hx]
  have hrow : matchKey org "meeting" "zoom" (newZoomRow org zfid1 (zoomCredentialsData zreq1)) = true := by
    simp [matchKey, newZoomRow]
  have hdb1 : (store_zoom_credentials db org zreq1 zfid1).1
      = db ++ [newZoomRow org zfid1 (zoomCredentialsData zreq1)] := by
    simp [store_zoom_credentials, hz]
  have hfind1 : (db ++ [newZoomRow org zfid1 (zoomCredentialsData zreq1)]).find?
      (matchKey org "meeting" "zoom")
      = some (newZoomRow org zfid1 (zoomCredentialsData zreq1)) := by
    rw [List.find?_append, hz]
    simp [List.find?, hrow]
  refine ⟨?_, ?_, ?_⟩
  · rw [hdb1]
    simp only [store_zoom_credentials, hfind1]
    rw [countP_updateFirst _ _ (zoomStoreUpdate (zoomCredentialsData zreq2))
        (fun r hr => matchKey_zoomStoreUpdate org "meeting" "zoom" _ r hr),
      List.countP_append, hcount]
    simp [hrow]
  · rw [hdb1]
    simp only [store_zoom_credentials, hfind1]
    rw [find?_updateFirst _ _ (zoomStoreUpdate (zoomCredentialsData zreq2))
        (fun r hr => matchKey_zoomStoreUpdate org "meeting" "zoom" _ r hr), hfind1]
    exact ⟨_, rfl, rfl, rfl⟩
  · conv_lhs => rw [hdb1]
    conv_rhs => rw [store_zoom_credentials]
    rw [hz]
    simp only [store_zoom_credentials, hfind1]
    rw [updateFirst_fixed]
    · rfl
    · intro r hr
      rw [hfind1] at hr
      cases hr
      rfl

theorem connect_reenables_and_disconnects (db : List IntegrationRow) (org : Nat)
    (req : ConnectOAuthRequest) (state sub now : String) (fid : Nat)
    (r0 r1 : IntegrationRow)
    (hc : db.find? (matchKey org "meeting" "calendly") = some r0)
    (hg : db.find? (matchKey org "meeting" "google_calendar") = some r1) :
    (∃ r, (connect_calendly db org req state sub now fid).1.find?
        (matchKey org "meeting" "calendly") = some r
      ∧ r.is_active = true ∧ r.is_connected = false
      ∧ r.config = some (calendlyCredentialsData req state sub now)
      ∧ r.id = r0.id ∧ r.name = r0.name)
    ∧ (∃ r, (connect_google_calendar db org req state sub now fid).1.find?
        (matchKey org "meeting" "google_calendar") = some r
      ∧ r.is_active = true ∧ r.is_connected = false
      ∧ r.config = some (googleCredentialsData req state sub now)
      ∧ r.id = r1.id ∧ r.name = r1.name) := by
  constructor
  · simp only [connect_calendly, hc]
    rw [find?_updateFirst _ _ (oauthConnectUpdate (calendlyCredentialsData req state sub now))
        (fun r hr => matchKey_oauthConnectUpdate org "meeting" "calendly" _ r hr), hc]
    exact ⟨_, rfl, rfl, rfl, rfl, rfl, rfl⟩
  · simp only [connect_google_calendar, hg]
    rw [find?_updateFirst _ _ (oauthConnectUpdate (googleCredentialsData req state sub now))
        (fun r hr => matchKey_oauthConnectUpdate org "meeting" "google_calendar" _ r hr), hg]
    exact ⟨_, rfl, rfl, rfl, rfl, rfl, rfl⟩

/-! ## OAuth completion: CSRF-checked code exchange

`complete_calendly_oauth` (calendly.py lines 372-519) and
`complete_google_calendar_oauth` (google_calendar.py lines 293-424): load the
integration, decrypt, reject unless the stored `oauth_state` equals the
supplied `state`, exchange the code at the vendor's token endpoint, merge the
tokens into the credential map, delete the transient OAuth fields, persist
with `is_connected = True`. -/

/-- Body of `POST .../oauth/complete` (a pydantic model: both fields required). -/
structure CompleteOAuthRequest where
  code : String
  state : String
deriving DecidableEq

/-- The JSON body returned by the vendor's token endpoint. -/
structure TokenData where
  error : Option String
  access_token : Option String
  refresh_token : Option String
  expires_in : Option Nat
deriving DecidableEq

/-- `resource` fields of Calendly's `/users/me` response. -/
structure CalendlyUserInfo where
  uri : String
  name : String
  scheduling_url : String
deriving DecidableEq

/-- External collaborators of a completion endpoint: the vendor token
endpoint (`.error` models `httpx.HTTPStatusError` from `raise_for_status`)
and, for Calendly, the `/users/me` fetch that captures the permanent
scheduling URL. -/
structure OAuthExchangeEnv where
  exchange : Except String TokenData
  userinfo : Except String CalendlyUserInfo

/-- An HTTP error response: status code and detail. -/
abbrev HErr := Nat × String

structure CompleteResult where
  success : Bool
  expires_at : Nat
  integration_id : Nat
deriving DecidableEq

/-- `stored_state = credentials.get("oauth_state");
if not stored_state or stored_state != request.state: raise` — Python
truthiness plus inequality: the check passes only when the stored value is a
nonempty string equal to the supplied one (a missing key, `None`, a boolean
or an empty string always fail). -/
def csrfStateOk (stored : Option CVal) (supplied : String) : Bool :=
  match stored with
  | some (CVal.s st) => !(st == "") && st == supplied
  | _ => false

/-- `credentials.pop("oauth_state", None); ... pop("oauth_user_id", None);
... pop("oauth_initiated_at", None)`. -/
def popTransientOAuthFields (m : CredMap) : CredMap :=
  cmPop (cmPop (cmPop m "oauth_state") "oauth_user_id") "oauth_initiated_at"

theorem popTransient_state_none (m : CredMap) :
    cmGet (popTransientOAuthFields m) "oauth_state" = none := by
  unfold popTransientOAuthFields
  rw [cmGet_cmPop_ne _ _ _ (by decide), cmGet_cmPop_ne _ _ _ (by decide),
    cmGet_cmPop_self]

/-- Token merge of `complete_calendly_oauth` (calendly.py lines 464-490):
token fields, completion markers, best-effort user info, then removal of the
transient OAuth fields. -/
def calendlyMergedCredentials (creds : CredMap) (td : TokenData) (expires_at : Nat)
    (nowIso : String) (ui : Except String CalendlyUserInfo) : CredMap :=
  let c1 := cmSet creds "access_token" (CVal.s (td.access_token.getD ""))
  let c2 := cmSet c1 "refresh_token" (CVal.s (td.refresh_token.getD ""))
  let c3 := cmSet c2 "token_expires_at" (CVal.s (toString expires_at))
  let c4 := cmSet c3 "oauth_completed" (CVal.b true)
  let c5 := cmSet c4 "oauth_completed_at" (CVal.s nowIso)
  let c6 := match ui with
    | .ok u => cmSet (cmSet (cmSet c5 "calendly_user_uri" (CVal.s u.uri))
        "calendly_user_name" (CVal.s u.name)) "calendly_scheduling_url" (CVal.s u.scheduling_url)
    | .error _ => c5
  popTransientOAuthFields c6

/-- Token merge of `complete_google_calendar_oauth` (google_calendar.py lines
385-395): same, without the user-info step. -/
def googleMergedCredentials (creds : CredMap) (td : TokenData) (expires_at : Nat)
    (nowIso : String) : CredMap :=
  let c1 := cmSet creds "access_token" (CVal.s (td.access_token.getD ""))
  let c2 := cmSet c1 "refresh_token" (CVal.s (td.refresh_token.getD ""))
  let c3 := cmSet c2 "token_expires_at" (CVal.s (toString expires_at))
  let c4 := cmSet c3 "oauth_completed" (CVal.b true)
  let c5 := cmSet c4 "oauth_completed_at" (CVal.s nowIso)
  popTransientOAuthFields c5

/-- The filter used by the completion endpoints:
(org, "meeting", provider) AND `is_active == True`. -/
def activeKey (org : Nat) (prov : String) (r : IntegrationRow) : Bool :=
  matchKey org "meeting" prov r && r.is_active

/-- The row mutation of a successful completion: persist the merged
credentials, `is_connected = True`, `last_sync_at = now`. -/
def completeUpdate (newCreds : CredMap) (now : Nat) (r : IntegrationRow) : IntegrationRow :=
  { r with config := some newCreds, is_connected := true, last_sync_at := some now }

theorem activeKey_completeUpdate (org : Nat) (prov : String) (c : CredMap) (now : Nat)
    (r : IntegrationRow) (h : activeKey org prov r = true) :
    activeKey org prov (completeUpdate c now r) = true := by
  simpa [activeKey, matchKey, completeUpdate] using h

/-- `POST /integrations/calendly/oauth/complete` (calendly.py lines 372-519). -/
def complete_calendly_oauth (db : List IntegrationRow) (org : Nat)
    (req : CompleteOAuthRequest) (env : OAuthExchangeEnv) (now : Nat) (nowIso : String) :
    Except HErr (List IntegrationRow × CompleteResult) :=
  match db.find? (activeKey org "calendly") with
  | none => .error (404, "Calendly integration not found. Please connect first.")
  | some integration =>
    match integration.config with
    | none => .error (500, "OAuth failed: no stored config to decrypt")
    | some credentials =>
      if !(csrfStateOk (cmGet credentials "oauth_state") req.state) then
        .error (400, "Invalid state parameter. Possible CSRF attack.")
      else
        match env.exchange with
        | .error e => .error (400, "Failed to exchange code: " ++ e)
        | .ok td =>
          if td.error.isSome then
            .error (400, "Calendly OAuth error")
          else
            match td.access_token with
            | none => .error (400, "Missing access_token in response")
            | some _ =>
              let expires_at := now + td.expires_in.getD 7200
              let newCreds := calendlyMergedCredentials credentials td expires_at nowIso env.userinfo
              (.ok (updateFirst db (activeKey org "calendly") (completeUpdate newCreds now),
                { success := true, expires_at := expires_at, integration_id := integration.id }))

/-- `POST /integrations/google-calendar/oauth/complete`
(google_calendar.py lines 293-424). -/
def complete_google_calendar_oauth (db : List IntegrationRow) (org : Nat)
    (req : CompleteOAuthRequest) (env : OAuthExchangeEnv) (now : Nat) (nowIso : String) :
    Except HErr (List IntegrationRow × CompleteResult) :=
  match db.find? (activeKey org "google_calendar") with
  | none => .error (404, "Google Calendar integration not found. Please connect first.")
  | some integration =>
    match integration.config with
    | none => .error (500, "OAuth failed: no stored config to decrypt")
    | some credentials =>
      if !(csrfStateOk (cmGet credentials "oauth_state") req.state) then
        .error (400, "Invalid state parameter. Possible CSRF attack.")
      else
        match env.exchange with
        | .error e => .error (400, "Failed to exchange code: " ++ e)
        | .ok td =>
          if td.error.isSome then
            .error (400, "Google OAuth error")
          else
            match td.access_token with
            | none => .error (400, "Missing access_token in response")
            | some _ =>
              let expires_at := now + td.expires_in.getD 3600
              let newCreds := googleMergedCredentials credentials td expires_at nowIso
              (.ok (updateFirst db (activeKey org "google_calendar") (completeUpdate newCreds now),
                { success := true, expires_at := expires_at, integration_id := integration.id }))

theorem calendlyMerged_state_none (c : CredMap) (td : TokenData) (e : Nat)
    (iso : String) (ui : Except String CalendlyUserInfo) :
    cmGet (calendlyMergedCredentials c td e iso ui) "oauth_state" = none := by
  simp only [calendlyMergedCredentials]
  exact popTransient_state_none _

theorem googleMerged_state_none (c : CredMap) (td : TokenData) (e : Nat) (iso : String) :
    cmGet (googleMergedCredentials c td e iso) "oauth_state" = none := by
  simp only [googleMergedCredentials]
  exact popTransient_state_none _

/-- C3: CSRF enforcement with one-shot state, for both OAuth completion
endpoints. If the integration found by `complete` stores a (nonempty)
`oauth_state` `st`, then: (a) any call whose supplied state differs from `st`
is rejected with the 400 CSRF error, whatever the token-exchange environment
(the check precedes the exchange); (b) a call with the matching state and a
successful exchange succeeds, marks the row connected, and removes
`oauth_state` from the stored credential blob; (c) after that, any second
completion attempt — any code, any state, any environment — is rejected with
the 400 CSRF error, because the stored state was consumed. -/
theorem complete_oauth_csrf_one_shot :
    (∀ (db : List IntegrationRow) (org : Nat) (integ : IntegrationRow)
       (creds : CredMap) (st : String) (env : OAuthExchangeEnv) (td : TokenData)
       (tok : String) (now : Nat) (iso code : String),
      db.find? (activeKey org "calendly") = some integ →
      integ.config = some creds →
      cmGet creds "oauth_state" = some (CVal.s st) →
      st ≠ "" →
      env.exchange = .ok td →
      td.error = none →
      td.access_token = some tok →
      ((∀ s code2 env2 now2 iso2, s ≠ st →
          complete_calendly_oauth db org ⟨code2, s⟩ env2 now2 iso2
            = .error (400, "Invalid state parameter. Possible CSRF attack."))
       ∧ (∃ db2 res, complete_calendly_oauth db org ⟨code, st⟩ env now iso = .ok (db2, res)
            ∧ res.success = true
            ∧ (∃ r2, db2.find? (activeKey org "calendly") = some r2
                ∧ r2.is_connected = true
                ∧ r2.config = some (calendlyMergedCredentials creds td
                    (now + td.expires_in.getD 7200) iso env.userinfo)
                ∧ cmGet (calendlyMergedCredentials creds td
                    (now + td.expires_in.getD 7200) iso env.userinfo) "oauth_state" = none)
            ∧ (∀ req2 env2 now2 iso2,
                complete_calendly_oauth db2 org req2 env2 now2 iso2
                  = .error (400, "Invalid state parameter. Possible CSRF attack.")))))
    ∧ (∀ (db : List IntegrationRow) (org : Nat) (integ : IntegrationRow)
       (creds : CredMap) (st : String) (env : OAuthExchangeEnv) (td : TokenData)
       (tok : String) (now : Nat) (iso code : String),
      db.find? (activeKey org "google_calendar") = some integ →
      integ.config = some creds →
      cmGet creds "oauth_state" = some (CVal.s st) →
      st ≠ "" →
      env.exchange = .ok td →
      td.error = none →
      td.access_token = some tok →
      ((∀ s code2 env2 now2 iso2, s ≠ st →
          complete_google_calendar_oauth db org ⟨code2, s⟩ env2 now2 iso2
            = .error (400, "Invalid state parameter. Possible CSRF attack."))
       ∧ (∃ db2 res, complete_google_calendar_oauth db org ⟨code, st⟩ env now iso = .ok (db2, res)
            ∧ res.success = true
            ∧ (∃ r2, db2.find? (activeKey org "google_calendar") = some r2
                ∧ r2.is_connected = true
                ∧ r2.config = some (googleMergedCredentials creds td
                    (now + td.expires_in.getD 3600) iso)
                ∧ cmGet (googleMergedCredentials creds td
                    (now + td.expires_in.getD 3600) iso) "oauth_state" = none)
            ∧ (∀ req2 env2 now2 iso2,
                complete_google_calendar_oauth db2 org req2 env2 now2 iso2
                  = .error (400, "Invalid state parameter. Possible CSRF attack."))))) := by
  constructor
  · intro db org integ creds st env td tok now iso code hfind hconf hstored hne hex herr htok
    have h1 : (st == "") = false := beq_eq_false_iff_ne.mpr hne
    refine ⟨?_, ?_⟩
    · intro s code2 env2 now2 iso2 hs
      have h2 : (st == s) = false := beq_eq_false_iff_ne.mpr (fun h => hs h.symm)
      simp [complete_calendly_oauth, hfind, hconf, hstored, csrfStateOk, h1, h2]
    · have h2 : (st == st) = true := beq_self_eq_true st
      have hok : complete_calendly_oauth db org ⟨code, st⟩ env now iso
          = .ok (updateFirst db (activeKey org "calendly")
              (completeUpdate (calendlyMergedCredentials creds td
                (now + td.expires_in.getD 7200) iso env.userinfo) now),
            { success := true, expires_at := now + td.expires_in.getD 7200,
              integration_id := integ.id }) := by
        simp [complete_calendly_oauth, hfind, hconf, hstored, csrfStateOk, h1, h2,
          hex, herr, htok]
      refine ⟨_, _, hok, rfl, ?_, ?_⟩
      · rw [find?_updateFirst _ _ _
            (fun r hr => activeKey_completeUpdate org "calendly" _ now r hr), hfind]
        exact ⟨_, rfl, rfl, rfl, calendlyMerged_state_none _ _ _ _ _⟩
      · intro req2 env2 now2 iso2
        have hfind2 : (updateFirst db (activeKey org "calendly")
            (completeUpdate (calendlyMergedCredentials creds td
              (now + td.expires_in.getD 7200) iso env.userinfo) now)).find?
              (activeKey org "calendly")
            = some (completeUpdate (calendlyMergedCredentials creds td
              (now + td.expires_in.getD 7200) iso env.userinfo) now integ) := by
          rw [find?_updateFirst _ _ _
              (fun r hr => activeKey_completeUpdate org "calendly" _ now r hr), hfind]
          rfl
        simp [complete_calendly_oauth, hfind2, completeUpdate, csrfStateOk,
          calendlyMerged_state_none]
  · intro db org integ creds st env td tok now iso code hfind hconf hstored hne hex herr htok
    have h1 : (st == "") = false := beq_eq_false_iff_ne.mpr hne
    refine ⟨?_, ?_⟩
    · intro s code2 env2 now2 iso2 hs
      have h2 : (st == s) = false := beq_eq_false_iff_ne.mpr (fun h => hs h.symm)
      simp [complete_google_calendar_oauth, hfind, hconf, hstored, csrfStateOk, h1, h2]
    · have h2 : (st == st) = true := beq_self_eq_true st
      have hok : complete_google_calendar_oauth db org ⟨code, st⟩ env now iso
          = .ok (updateFirst db (activeKey org "google_calendar")
              (completeUpdate (googleMergedCredentials creds td
                (now + td.expires_in.getD 3600) iso) now),
            { success := true, expires_at := now + td.expires_in.getD 3600,
              integration_id := integ.id }) := by
        simp [complete_google_calendar_oauth, hfind, hconf, hstored, csrfStateOk, h1, h2,
          hex, herr, htok]
      refine ⟨_, _, hok, rfl, ?_, ?_⟩
      · rw [find?_updateFirst _ _ _
            (fun r hr => activeKey_completeUpdate org "google_calendar" _ now r hr), hfind]
        exact ⟨_, rfl, rfl, rfl, googleMerged_state_none _ _ _ _⟩
      · intro req2 env2 now2 iso2
        have hfind2 : (updateFirst db (activeKey org "google_calendar")
            (completeUpdate (googleMergedCredentials creds td
              (now + td.expires_in.getD 3600) iso) now)).find?
              (activeKey org "google_calendar")
            = some (completeUpdate (googleMergedCredentials creds td
              (now + td.expires_in.getD 3600) iso) now integ) := by
          rw [find?_updateFirst _ _ _
              (fun r hr => activeKey_completeUpdate org "google_calendar" _ now r hr), hfind]
          rfl
        simp [complete_google_calendar_oauth, hfind2, completeUpdate, csrfStateOk,
          googleMerged_state_none]

/-! ## Provider clients: lazy token refresh and capability lookups -/

/-- An HTTP response from a vendor API (body abstracted to one datum). -/
structure HttpResp where
  status : Nat
  body : String
deriving DecidableEq

/-- The filter used by the booking fan-out and other connected-only lookups:
(org, type, provider) AND `is_active == True` AND `is_connected == True`. -/
def connectedKey (org : Nat) (ty prov : String) (r : IntegrationRow) : Bool :=
  matchKey org ty prov r && r.is_active && r.is_connected

/-- The lookup of `send_sms` (twilio.py lines 131-136): filters `is_active`
but NOT `is_connected`. -/
def findTwilioIntegration (db : List IntegrationRow) (org : Nat) : Option IntegrationRow :=
  db.find? (fun r => matchKey org "sms" "twilio" r && r.is_active)

/-- The lookup of `create_zoom_meeting_endpoint` (zoom.py lines 264-269):
filters `is_active` but NOT `is_connected`. -/
def findZoomMeetingIntegration (db : List IntegrationRow) (org : Nat) : Option IntegrationRow :=
  db.find? (fun r => matchKey org "meeting" "zoom" r && r.is_active)

/-- The per-provider lookup of the booking fan-out (unified_booking.py lines
136-142 and analogues): filters both `is_active` AND `is_connected`. -/
def findBookingIntegration (db : List IntegrationRow) (org : Nat) (prov : String) :
    Option IntegrationRow :=
  db.find? (connectedKey org "meeting" prov)

structure SendSMSResponse where
  success : Bool
  message : String
  sid : Option String
deriving DecidableEq

/-- `POST /integrations/send-sms` (twilio.py lines 113-190). `sendResult` is
the Twilio REST call: `.ok sid` on success, `.error` when the client raises. -/
def send_sms (db : List IntegrationRow) (org : Nat) (sendResult : Except String String) :
    Except HErr SendSMSResponse :=
  match findTwilioIntegration db org with
  | none => .error (404,
      "Twilio SMS integration not found or not active. Please configure Twilio SMS in integrations first.")
  | some integration =>
    match integration.config with
    | none => .error (500, "Failed to decrypt Twilio credentials")
    | some _credentials =>
      match sendResult with
      | .ok sid => .ok { success := true, message := "SMS sent successfully", sid := some sid }
      | .error e => .ok { success := false, message := "Failed to send SMS: " ++ e, sid := none }

structure CreateZoomMeetingResponse where
  success : Bool
  message : String
  meeting_id : Option String
  join_url : Option String
  password : Option String
deriving DecidableEq

/-- The result of a successful Zoom meeting creation (zoom.py lines 121-133). -/
structure ZoomMeetingResult where
  meeting_id : String
  join_url : String
  password : Option String
deriving DecidableEq

/-- `POST /integrations/create-zoom-meeting` (zoom.py lines 243-323).
`createResult` is the `create_zoom_meeting` helper call. -/
def create_zoom_meeting_endpoint (db : List IntegrationRow) (org : Nat)
    (createResult : Except String ZoomMeetingResult) :
    Except HErr CreateZoomMeetingResponse :=
  match findZoomMeetingIntegration db org with
  | none => .error (404,
      "Zoom integration not found or not active. Please configure Zoom in integrations first.")
  | some integration =>
    match integration.config with
    | none => .error (500, "Failed to decrypt Zoom credentials")
    | some _credentials =>
      match createResult with
      | .ok m =>
          .ok { success := true, message := "Zoom meeting created successfully",
                meeting_id := some m.meeting_id, join_url := some m.join_url,
                password := m.password }
      | .error e =>
          .ok { success := false, message := "Failed to create Zoom meeting: " ++ e,
                meeting_id := none, join_url := none, password := none }

/-- HTTP environment of `CalendlyClient`: the `/users/me` response as a
function of the bearer token presented, and the outcome of the token-refresh
POST (`.error` models `raise_for_status` failing on it). -/
structure CalendlyHttpEnv where
  usersMe : String → HttpResp
  refreshed : Except String String

/-- In-memory state of `CalendlyClient` (calendly.py lines 30-38). -/
structure CalendlyClient where
  access_token : String
  refresh_token : String
  client_id : String
  client_secret : String
deriving DecidableEq

/-- `CalendlyClient.get_current_user` (calendly.py lines 59-85): GET
`/users/me` with the current token; on a 401 refresh the token and retry
exactly once with the new token; `raise_for_status`; return the JSON body
together with the client whose in-memory `access_token` may have been
replaced. Nothing here touches the database. -/
def CalendlyClient.get_current_user (c : CalendlyClient) (env : CalendlyHttpEnv) :
    Except String (String × CalendlyClient) :=
  let resp := env.usersMe c.access_token
  if resp.status == 401 then
    match env.refreshed with
    | .error e => .error e
    | .ok newTok =>
      let c2 := { c with access_token := newTok }
      let resp2 := env.usersMe newTok
      if resp2.status < 400 then .ok (resp2.body, c2)
      else .error ("HTTP " ++ toString resp2.status)
  else if resp.status < 400 then .ok (resp.body, c)
  else .error ("HTTP " ++ toString resp.status)

/-- HTTP environment of `GoogleCalendarClient.create_event`: the event-insert
response as a function of the bearer token presented, plus the refresh POST. -/
structure GoogleHttpEnv where
  createEvent : String → HttpResp
  refreshed : Except String String

/-- In-memory state of `GoogleCalendarClient` (google_calendar.py lines 30-38). -/
structure GoogleCalendarClient where
  access_token : String
  refresh_token : String
  client_id : String
  client_secret : String
deriving DecidableEq

/-- `GoogleCalendarClient.create_event` (google_calendar.py lines 59-146):
POST the event with the current token; on 401 refresh and retry exactly once;
`raise_for_status`; return the created event's body with the client. -/
def GoogleCalendarClient.create_event (c : GoogleCalendarClient) (env : GoogleHttpEnv) :
    Except String (String × GoogleCalendarClient) :=
  let resp := env.createEvent c.access_token
  if resp.status == 401 then
    match env.refreshed with
    | .error e => .error e
    | .ok newTok =>
      let c2 := { c with access_token := newTok }
      let resp2 := env.createEvent newTok
      if resp2.status < 400 then .ok (resp2.body, c2)
      else .error ("HTTP " ++ toString resp2.status)
  else if resp.status < 400 then .ok (resp.body, c)
  else .error ("HTTP " ++ toString resp.status)

/-- `POST /integrations/google-calendar/create-event` (google_calendar.py
lines 427-507): look up the connected integration, decrypt, build a fresh
client from the stored tokens, create the event. The handler performs no
session write, so the database after the call — the second component — is the
input database itself: a token refreshed inside `create_event` lives only in
the discarded client instance. -/
def create_event_result (db : List IntegrationRow) (org : Nat) (env : GoogleHttpEnv) :
    Except HErr String :=
  match db.find? (connectedKey org "meeting" "google_calendar") with
  | none => .error (404, "Google Calendar not connected.")
  | some integration =>
    match integration.config with
    | none => .error (404, "Google Calendar not connected.")
    | some creds =>
      let client : GoogleCalendarClient :=
        { access_token := cmGetStr creds "access_token",
          refresh_token := cmGetStr creds "refresh_token",
          client_id := cmGetStr creds "client_id",
          client_secret := cmGetStr creds "client_secret" }
      match client.create_event env with
      | .ok (body, _c2) => .ok body
      | .error e => .error (500, "Failed to create event: " ++ e)

/-- The handler's effect on the session: the source contains no write to the
row between loading it and returning, so the outgoing database is the
incoming one — holding whatever `access_token` it held before the call. -/
def create_event_endpoint (db : List IntegrationRow) (org : Nat) (env : GoogleHttpEnv) :
    Except HErr String × List IntegrationRow :=
  (create_event_result db org env, db)

/-- C5 (amended): a capability call that receives a 401 refreshes the token
and retries exactly once with the new token, returning exactly the success
result that a client holding the fresh token from the start would get. For
the Calendly and Google Calendar clients, however, the refreshed token lives
only in the in-memory client instance: the google-calendar `create-event`
handler returns the database unchanged, so the stored `access_token` is NOT
updated there (the Zoho handlers, which re-encrypt and commit immediately
inside their refresh helper, are outside this theorem's scope). A 401 on the
retry fails the call without a second refresh. -/
theorem token_refresh_retry_once_in_memory :
    (∀ (c : CalendlyClient) (env : CalendlyHttpEnv) (newTok : String),
      (env.usersMe c.access_token).status = 401 →
      env.refreshed = .ok newTok →
      (env.usersMe newTok).status < 400 →
      (c.get_current_user env
          = .ok ((env.usersMe newTok).body, { c with access_token := newTok })
       ∧ CalendlyClient.get_current_user { c with access_token := newTok } env
          = .ok ((env.usersMe newTok).body, { c with access_token := newTok })))
    ∧ (∀ (c : CalendlyClient) (env : CalendlyHttpEnv) (newTok : String),
      (env.usersMe c.access_token).status = 401 →
      env.refreshed = .ok newTok →
      (env.usersMe newTok).status = 401 →
      c.get_current_user env = .error "HTTP 401")
    ∧ (∀ (c : GoogleCalendarClient) (env : GoogleHttpEnv) (newTok : String),
      (env.createEvent c.access_token).status = 401 →
      env.refreshed = .ok newTok →
      (env.createEvent newTok).status < 400 →
      c.create_event env
        = .ok ((env.createEvent newTok).body, { c with access_token := newTok }))
    ∧ (∀ (db : List IntegrationRow) (org : Nat) (env : GoogleHttpEnv),
      (create_event_endpoint db org env).2 = db) := by
  refine ⟨?_, ?_, ?_, ?_⟩
  · intro c env newTok h1 h2 h3
    have hne : ¬ ((env.usersMe newTok).status = 401) := by omega
    constructor
    · simp [CalendlyClient.get_current_user, h1, h2, h3]
    · simp [CalendlyClient.get_current_user, hne, h3]
  · intro c env newTok h1 h2 h3
    simp [CalendlyClient.get_current_user, h1, h2, h3]
    decide
  · intro c env newTok h1 h2 h3
    have hne : ¬ ((env.createEvent newTok).status = 401) := by omega
    simp [GoogleCalendarClient.create_event, h1, h2, h3]
  · intro db org env
    rfl

/-- Stored row for the C5 counterexample: a connected Google Calendar
integration whose stored access token is "old_token". -/
def c5Row : IntegrationRow :=
  { id := 7, organization_id := 1, name := "Google Calendar", type := "meeting",
    provider := "google_calendar",
    config := some [("client_id", CVal.s "cid"), ("client_secret", CVal.s "cs"),
      ("access_token", CVal.s "old_token"), ("refresh_token", CVal.s "rtok")],
    is_active := true, is_connected := true, last_sync_at := none }

/-- Vendor behaviour for the C5 counterexample: the stored token gets 401,
the refresh yields "new_token", which gets 200. -/
def c5Env : GoogleHttpEnv :=
  { createEvent := fun t =>
      if t == "new_token" then { status := 200, body := "created_event" }
      else { status := 401, body := "unauthorized" },
    refreshed := .ok "new_token" }

/-- C5 counterexample: with a simulated 401-then-200, the capability call
succeeds, but the database coming out of the handler is unchanged — the
stored `access_token` is still "old_token", not the refreshed "new_token",
refuting "the refreshed access_token is persisted immediately to the stored
encrypted integration config". -/
theorem token_refresh_not_persisted_cex :
    (create_event_endpoint [c5Row] 1 c5Env).1 = .ok "created_event"
    ∧ (create_event_endpoint [c5Row] 1 c5Env).2 = [c5Row]
    ∧ cmGetStr (c5Row.config.getD []) "access_token" = "old_token"
    ∧ ("old_token" : String) ≠ "new_token" := by
  refine ⟨rfl, rfl, rfl, by decide⟩

/-- C8 (amended): the booking fan-out's per-provider lookup filters on both
`is_active` and `is_connected`, but the `send-sms` and `create-zoom-meeting`
lookups filter only on `is_active` — they give no `is_connected` guarantee. -/
theorem connected_lookup_filters :
    (∀ (db : List IntegrationRow) (org : Nat) (prov : String) (r : IntegrationRow),
      findBookingIntegration db org prov = some r →
      r.is_active = true ∧ r.is_connected = true)
    ∧ (∀ (db : List IntegrationRow) (org : Nat) (r : IntegrationRow),
      findTwilioIntegration db org = some r → r.is_active = true)
    ∧ (∀ (db : List IntegrationRow) (org : Nat) (r : IntegrationRow),
      findZoomMeetingIntegration db org = some r → r.is_active = true) := by
  refine ⟨?_, ?_, ?_⟩
  · intro db org prov r h
    have hp := List.find?_some h
    simp only [connectedKey, Bool.and_eq_true] at hp
    exact ⟨hp.1.2, hp.2⟩
  · intro db org r h
    have hp := List.find?_some h
    simp only [Bool.and_eq_true] at hp
    exact hp.2
  · intro db org r h
    have hp := List.find?_some h
    simp only [Bool.and_eq_true] at hp
    exact hp.2

/-- Stored row for the C8 counterexample: a Twilio SMS integration that is
active but NOT connected. -/
def c8TwilioRow : IntegrationRow :=
  { id := 3, organization_id := 1, name := "Twilio SMS", type := "sms",
    provider := "twilio",
    config := some [("account_sid", CVal.s "AC1"), ("auth_token", CVal.s "tok"),
      ("phone_number", CVal.s "+15550001111")],
    is_active := true, is_connected := false, last_sync_at := none }

/-- Stored row for the C8 counterexample: a Zoom integration that is active
but NOT connected. -/
def c8ZoomRow : IntegrationRow :=
  { id := 4, organization_id := 1, name := "Zoom Meetings", type := "meeting",
    provider := "zoom",
    config := some [("account_id", CVal.s "acc"), ("client_id", CVal.s "cid"),
      ("client_secret", CVal.s "cs")],
    is_active := true, is_connected := false, last_sync_at := none }

/-- C8 counterexample: an integration that is active but not connected IS
found and used by `send-sms` and by `create-zoom-meeting` — both lookups omit
the `is_connected` filter, refuting "every capability call's lookup filters
on both is_active AND is_connected". -/
theorem connected_lookup_cex :
    c8TwilioRow.is_active = true ∧ c8TwilioRow.is_connected = false
    ∧ findTwilioIntegration [c8TwilioRow] 1 = some c8TwilioRow
    ∧ send_sms [c8TwilioRow] 1 (.ok "SM123")
        = .ok { success := true, message := "SMS sent successfully", sid := some "SM123" }
    ∧ c8ZoomRow.is_active = true ∧ c8ZoomRow.is_connected = false
    ∧ findZoomMeetingIntegration [c8ZoomRow] 1 = some c8ZoomRow
    ∧ create_zoom_meeting_endpoint [c8ZoomRow] 1
        (.ok { meeting_id := "987", join_url := "https://zoom.example/j/987", password := some "pw" })
        = .ok { success := true, message := "Zoom meeting created successfully",
                meeting_id := some "987", join_url := some "https://zoom.example/j/987",
                password := some "pw" } := by
  refine ⟨rfl, rfl, rfl, rfl, rfl, rfl, rfl, rfl⟩

/-! ## Unified booking orchestrator

`book_meeting` (unified_booking.py lines 26-548): validate, parse the
date/time, attempt Zoom, Google Calendar, Calendly and Zoho Bookings each in
its own try/except, fail only if nothing was used, then send a best-effort
confirmation email and assemble the aggregate response. -/

def isDigitCh (c : Char) : Bool := 48 ≤ c.toNat && c.toNat ≤ 57

def digitsVal (l : List Char) : Nat := l.foldl (fun a c => a * 10 + (c.toNat - 48)) 0

def isLeapYear (y : Nat) : Bool := (y % 4 == 0 && y % 100 != 0) || y % 400 == 0

def daysInMonth (y m : Nat) : Nat :=
  if m == 2 then (if isLeapYear y then 29 else 28)
  else if m == 4 || m == 6 || m == 9 || m == 11 then 30
  else 31

/-- `str.split(sep)` for a one-character separator, on the character list. -/
def splitOnCh (c : Char) : List Char → List (List Char)
  | [] => [[]]
  | x :: xs =>
    if x == c then [] :: splitOnCh c xs
    else
      match splitOnCh c xs with
      | [] => [[x]]
      | h :: t => (x :: h) :: t

/-- A numeric `strptime` field: 1 to `maxLen` digits. -/
def numField (l : List Char) (maxLen : Nat) : Option Nat :=
  if decide (1 ≤ l.length) && decide (l.length ≤ maxLen) && l.all isDigitCh then
    some (digitsVal l)
  else none

/-- `datetime.strptime(f"{booking_date} {booking_time}", "%Y-%m-%d %H:%M")`
(unified_booking.py line 110), modelled on the two request strings:
year-month-day split on `-` and hour:minute split on `:`, with `strptime`'s
digit-count limits and `datetime`'s range checks (year 1-9999, month 1-12,
day within the month, hour 0-23, minute 0-59). `none` models the
`ValueError` the Python call raises on unparseable input. -/
def parseBookingDateTime (d t : String) : Option (Nat × Nat × Nat × Nat × Nat) :=
  match splitOnCh '-' d.toList, splitOnCh ':' t.toList with
  | [ys, ms, ds], [hs, mins] =>
    match numField ys 4, numField ms 2, numField ds 2, numField hs 2, numField mins 2 with
    | some y, some mo, some da, some h, some mi =>
      if decide (1 ≤ y) && decide (y ≤ 9999) && decide (1 ≤ mo) && decide (mo ≤ 12)
          && decide (1 ≤ da) && decide (da ≤ daysInMonth y mo)
          && decide (h ≤ 23) && decide (mi ≤ 59) then
        some (y, mo, da, h, mi)
      else none
    | _, _, _, _, _ => none
  | _, _ => none

/-- `htmlLink` / `hangoutLink` of a created Google Calendar event. -/
structure GcalEventResult where
  htmlLink : Option String
  hangoutLink : Option String
deriving DecidableEq

/-- The `google_calendar` fragment of the booking response (lines 209-212). -/
structure GcalRespFrag where
  event_link : Option String
  google_meet_link : Option String
deriving DecidableEq

/-- The `calendly` fragment of the booking response (lines 248-253, 299-304). -/
structure CalendlyFrag where
  scheduling_link : String
  status : String
deriving DecidableEq

/-- The `zoho_bookings` fragment of the booking response (lines 373-377). -/
structure ZohoBookingFrag where
  booking_id : Option String
  booking_link : Option String
deriving DecidableEq

/-- Outcome of one provider's guarded block in the fan-out: no active,
connected integration with a config (the block skips silently), the block
raised an exception, or the capability call succeeded. -/
inductive ProvAttempt (α : Type) where
  | notConnected
  | raised (msg : String)
  | ok (r : α)
deriving DecidableEq

/-- Outcome of the Calendly block (lines 229-320): the permanent scheduling
URL captured at OAuth time, an event-type link fetched from the API, a silent
no-link outcome (the inner event-types fetch failed or matched nothing — it
is caught at line 311 without recording an error), a raised outer block, or
no connected integration. -/
inductive CalendlyAttempt where
  | notConnected
  | raised (msg : String)
  | permUrl (url : String) (userName : String)
  | eventType (url : String) (etName : String) (duration : Nat)
  | noLink
deriving DecidableEq

/-- Outcome of the confirmation-email block (lines 403-525). -/
inductive GmailAttempt where
  | notConnected
  | sendRaised (msg : String)
  | sent
deriving DecidableEq

/-- The four provider attempts plus the confirmation-email attempt: the
environment of one `book_meeting` evaluation. -/
structure BookEnv where
  zoom : ProvAttempt ZoomMeetingResult
  gcal : ProvAttempt GcalEventResult
  calendly : CalendlyAttempt
  zoho : ProvAttempt ZohoBookingFrag
  gmail : GmailAttempt
deriving DecidableEq

/-- Body of `POST /integrations/book-meeting`: a plain dict read with
`request.get(...)` (fields may be absent; `duration_minutes` defaults to 30,
`timezone` to "Asia/Kolkata"). -/
structure BookRequest where
  customer_name : Option String
  customer_email : Option String
  customer_phone : Option String
  booking_date : Option String
  booking_time : Option String
  duration_minutes : Nat
  notes : Option String
  timezone : Option String
deriving DecidableEq

/-- Python truthiness of an optional request string: absent and `""` are falsy. -/
def truthyOptStr : Option String → Bool
  | none => false
  | some s => !(s == "")

/-- `if not all([customer_name, customer_email, booking_date, booking_time])`
(line 103). -/
def validBookRequest (req : BookRequest) : Bool :=
  truthyOptStr req.customer_name && truthyOptStr req.customer_email
    && truthyOptStr req.booking_date && truthyOptStr req.booking_time

/-- The aggregate booking response (`integration_errors` is attached only
when nonempty in the source; the empty list models its absence). -/
structure BookResponse where
  success : Bool
  message : String
  zoom_meeting : Option ZoomMeetingResult
  google_calendar : Option GcalRespFrag
  calendly : Option CalendlyFrag
  zoho_bookings : Option ZohoBookingFrag
  email_sent : Bool
  integrations_used : List String
  integration_errors : List (String × String)
deriving DecidableEq

def book_meeting (req : BookRequest) (env : BookEnv) : Except HErr BookResponse :=
  if !(validBookRequest req) then
    .error (400, "Missing required fields: customer_name, customer_email, booking_date, booking_time")
  else
    match parseBookingDateTime (req.booking_date.getD "") (req.booking_time.getD "") with
    | none => .error (500, "Failed to book meeting: time data does not match format")
    | some _dt =>
      let (zoomFrag, used0) :=
        match env.zoom with
        | .ok m => (some m, ["Zoom"])
        | _ => (none, [])
      let (gcalFrag, used1) :=
        match env.gcal with
        | .ok g => (some ({ event_link := g.htmlLink, google_meet_link := g.hangoutLink } : GcalRespFrag),
            used0 ++ ["Google Calendar"])
        | _ => (none, used0)
      let (calFrag, used2, errs2) :=
        match env.calendly with
        | .permUrl url _un =>
            (some ({ scheduling_link := url, status := "permanent_link_provided" } : CalendlyFrag),
             used1 ++ ["Calendly"], ([] : List (String × String)))
        | .eventType url _n _d =>
            (some ({ scheduling_link := url, status := "event_type_link_provided" } : CalendlyFrag),
             used1 ++ ["Calendly"], [])
        | .raised e => (none, used1, [("calendly", e)])
        | _ => (none, used1, [])
      let (zohoFrag, used3, errs3) :=
        match env.zoho with
        | .ok z => (some z, used2 ++ ["Zoho Bookings"], errs2)
        | .raised e => (none, used2, errs2 ++ [("zoho_bookings", e)])
        | .notConnected => (none, used2, errs2)
      if used3.isEmpty then
        .error (404, "No meeting integrations are connected. Please connect at least one integration (Zoom, Google Calendar, Calendly, or Zoho Bookings) in the admin panel.")
      else
        let email_sent :=
          match env.gmail with
          | .sent => true
          | _ => false
        let message := "Meeting booked successfully via " ++ String.intercalate ", " used3 ++ "!"
            ++ (if email_sent then
                  " Confirmation email sent to " ++ req.customer_email.getD "" ++ "."
                else "")
        .ok { success := true, message := message, zoom_meeting := zoomFrag,
              google_calendar := gcalFrag, calendly := calFrag, zoho_bookings := zohoFrag,
              email_sent := email_sent, integrations_used := used3,
              integration_errors := errs3 }

/-- Specification view: the providers whose capability call succeeded, in the
fixed attempt order of the fan-out. -/
def succeededProviders (env : BookEnv) : List String :=
  (match env.zoom with | .ok _ => ["Zoom"] | _ => [])
  ++ (match env.gcal with | .ok _ => ["Google Calendar"] | _ => [])
  ++ (match env.calendly with
      | .permUrl _ _ => ["Calendly"]
      | .eventType _ _ _ => ["Calendly"]
      | _ => [])
  ++ (match env.zoho with | .ok _ => ["Zoho Bookings"] | _ => [])

/-- Specification view: the entries the error map receives — only the
Calendly and Zoho Bookings handlers write to it. -/
def recordedErrors (env : BookEnv) : List (String × String) :=
  (match env.calendly with | .raised e => [("calendly", e)] | _ => [])
  ++ (match env.zoho with | .raised e => [("zoho_bookings", e)] | _ => [])

def zoomFragOf (env : BookEnv) : Option ZoomMeetingResult :=
  match env.zoom with | .ok m => some m | _ => none

def gcalFragOf (env : BookEnv) : Option GcalRespFrag :=
  match env.gcal with
  | .ok g => some { event_link := g.htmlLink, google_meet_link := g.hangoutLink }
  | _ => none

def calFragOf (env : BookEnv) : Option CalendlyFrag :=
  match env.calendly with
  | .permUrl url _ => some { scheduling_link := url, status := "permanent_link_provided" }
  | .eventType url _ _ => some { scheduling_link := url, status := "event_type_link_provided" }
  | _ => none

def zohoFragOf (env : BookEnv) : Option ZohoBookingFrag :=
  match env.zoho with | .ok z => some z | _ => none

def emailSentOf (env : BookEnv) : Bool :=
  match env.gmail with | .sent => true | _ => false

def bookMessage (req : BookRequest) (env : BookEnv) : String :=
  "Meeting booked successfully via " ++ String.intercalate ", " (succeededProviders env) ++ "!"
    ++ (if emailSentOf env then
          " Confirmation email sent to " ++ req.customer_email.getD "" ++ "."
        else "")

/-- Full characterization of `book_meeting` once validation and parsing have
passed: a 404 exactly when no provider succeeded, otherwise the aggregate
response assembled from the per-provider outcomes. -/
theorem book_meeting_spec (req : BookRequest) (env : BookEnv)
    (hval : validBookRequest req = true)
    (dt : Nat × Nat × Nat × Nat × Nat)
    (hdt : parseBookingDateTime (req.booking_date.getD "") (req.booking_time.getD "") = some dt) :
    book_meeting req env =
      if succeededProviders env = [] then
        .error (404, "No meeting integrations are connected. Please connect at least one integration (Zoom, Google Calendar, Calendly, or Zoho Bookings) in the admin panel.")
      else
        .ok { success := true, message := bookMessage req env,
              zoom_meeting := zoomFragOf env, google_calendar := gcalFragOf env,
              calendly := calFragOf env, zoho_bookings := zohoFragOf env,
              email_sent := emailSentOf env, integrations_used := succeededProviders env,
              integration_errors := recordedErrors env } := by
  obtain ⟨z, g, c, zo, gm⟩ := env
  unfold book_meeting
  rw [hval, hdt]
  cases z <;> cases g <;> cases c <;> cases zo <;>
    simp [succeededProviders, recordedErrors, zoomFragOf, gcalFragOf, calFragOf,
      zohoFragOf, emailSentOf, bookMessage]

/-- C1 (amended): once validation and parsing pass, every provider is
attempted inside its own failure boundary; if at least one succeeds the
request is an overall success, `integrations_used` is exactly the successful
providers, and `integration_errors` records exactly the failures of the
providers whose handlers write to it — Calendly and Zoho Bookings; Zoom and
Google Calendar failures are logged but NOT recorded in the map. No single
failure aborts the others or the request. -/
theorem booking_fanout_independence (req : BookRequest) (env : BookEnv)
    (hval : validBookRequest req = true)
    (dt : Nat × Nat × Nat × Nat × Nat)
    (hdt : parseBookingDateTime (req.booking_date.getD "") (req.booking_time.getD "") = some dt)
    (hne : succeededProviders env ≠ []) :
    ∃ r, book_meeting req env = .ok r
      ∧ r.success = true
      ∧ r.integrations_used = succeededProviders env
      ∧ r.integration_errors = recordedErrors env := by
  rw [book_meeting_spec req env hval dt hdt, if_neg hne]
  exact ⟨_, rfl, rfl, rfl, rfl⟩

def c1Req : BookRequest :=
  { customer_name := some "John Doe", customer_email := some "john@example.com",
    customer_phone := some "+15551230000", booking_date := some "2025-12-25",
    booking_time := some "14:30", duration_minutes := 30, notes := none, timezone := none }

/-- Three connected providers; Zoom's capability call raises a transient
error, Google Calendar and Calendly succeed. -/
def c1Env : BookEnv :=
  { zoom := .raised "TransientError: connection timed out",
    gcal := .ok { htmlLink := some "https://calendar.google.example/event1",
                  hangoutLink := some "https://meet.google.example/abc-defg" },
    calendly := .permUrl "https://calendly.example/jane" "Jane",
    zoho := .notConnected,
    gmail := .sent }

/-- C1 counterexample: with Zoom as the failing provider B, the booking is an
overall success and `integrations_used` holds the other two — but
`integration_errors` is EMPTY: no entry for the failed provider, because the
Zoom (and Google Calendar) handlers only log their exceptions. This refutes
"integration_errors contains an entry for every provider that failed". -/
theorem booking_fanout_error_map_cex :
    c1Env.zoom = ProvAttempt.raised "TransientError: connection timed out"
    ∧ (book_meeting c1Req c1Env).toOption.map (fun r => r.success) = some true
    ∧ (book_meeting c1Req c1Env).toOption.map (fun r => r.integrations_used)
        = some ["Google Calendar", "Calendly"]
    ∧ (book_meeting c1Req c1Env).toOption.map (fun r => r.integration_errors) = some [] := by
  exact ⟨rfl, rfl, rfl, rfl⟩

/-- C4 (amended): the whole-request failure modes of `book_meeting` are
exactly: 400 when a required field is missing (or empty), 500 — an internal
server error, not a 400 validation error — when the date/time is
unparseable, and 404 when no provider was used; when at least one provider
succeeds the overall result is success. -/
theorem book_meeting_failure_characterization (req : BookRequest) (env : BookEnv) :
    (validBookRequest req = false →
      book_meeting req env = .error (400,
        "Missing required fields: customer_name, customer_email, booking_date, booking_time"))
    ∧ (validBookRequest req = true →
      parseBookingDateTime (req.booking_date.getD "") (req.booking_time.getD "") = none →
      book_meeting req env = .error (500, "Failed to book meeting: time data does not match format"))
    ∧ (∀ dt, validBookRequest req = true →
      parseBookingDateTime (req.booking_date.getD "") (req.booking_time.getD "") = some dt →
      succeededProviders env = [] →
      book_meeting req env = .error (404,
        "No meeting integrations are connected. Please connect at least one integration (Zoom, Google Calendar, Calendly, or Zoho Bookings) in the admin panel."))
    ∧ (∀ dt, validBookRequest req = true →
      parseBookingDateTime (req.booking_date.getD "") (req.booking_time.getD "") = some dt →
      succeededProviders env ≠ [] →
      ∃ r, book_meeting req env = .ok r ∧ r.success = true) := by
  refine ⟨?_, ?_, ?_, ?_⟩
  · intro h
    simp [book_meeting, h]
  · intro h1 h2
    simp [book_meeting, h1, h2]
  · intro dt h1 h2 h3
    rw [book_meeting_spec req env h1 dt h2, if_pos h3]
  · intro dt h1 h2 h3
    rw [book_meeting_spec req env h1 dt h2, if_neg h3]
    exact ⟨_, rfl, rfl⟩

def c4Req : BookRequest :=
  { customer_name := some "John Doe", customer_email := some "john@example.com",
    customer_phone := none, booking_date := some "2025-13-01",
    booking_time := some "10:00", duration_minutes := 30, notes := none, timezone := none }

def c4Env : BookEnv :=
  { zoom := .ok { meeting_id := "123", join_url := "https://zoom.example/j/123", password := none },
    gcal := .notConnected, calendly := .notConnected, zoho := .notConnected,
    gmail := .notConnected }

/-- C4 counterexample: all required fields are present but the date has month
13, which `strptime` rejects with a `ValueError`; the handler's blanket
`except Exception` converts it into an HTTP 500 — an internal server error,
not the validation (client) error the claim states. -/
theorem booking_unparseable_date_500_cex :
    validBookRequest c4Req = true
    ∧ parseBookingDateTime "2025-13-01" "10:00" = none
    ∧ book_meeting c4Req c4Env
        = .error (500, "Failed to book meeting: time data does not match format")
    ∧ (500 : Nat) ≠ 400 := by
  exact ⟨rfl, rfl, rfl, by decide⟩

/-- C6: a failure of the confirmation-email step only flips `email_sent` to
false; the overall success flag, every per-provider fragment,
`integrations_used` and `integration_errors` are identical to the run in
which the email was sent. -/
theorem booking_email_best_effort (req : BookRequest) (env : BookEnv) (e : String)
    (hval : validBookRequest req = true)
    (dt : Nat × Nat × Nat × Nat × Nat)
    (hdt : parseBookingDateTime (req.booking_date.getD "") (req.booking_time.getD "") = some dt)
    (hne : succeededProviders env ≠ []) :
    ∃ rf ro,
      book_meeting req { env with gmail := GmailAttempt.sendRaised e } = .ok rf
      ∧ book_meeting req { env with gmail := GmailAttempt.sent } = .ok ro
      ∧ rf.email_sent = false ∧ ro.email_sent = true
      ∧ rf.success = true ∧ ro.success = true
      ∧ rf.zoom_meeting = ro.zoom_meeting
      ∧ rf.google_calendar = ro.google_calendar
      ∧ rf.calendly = ro.calendly
      ∧ rf.zoho_bookings = ro.zoho_bookings
      ∧ rf.integrations_used = ro.integrations_used
      ∧ rf.integration_errors = ro.integration_errors := by
  have hne1 : succeededProviders { env with gmail := GmailAttempt.sendRaised e } ≠ [] := hne
  have hne2 : succeededProviders { env with gmail := GmailAttempt.sent } ≠ [] := hne
  rw [book_meeting_spec req _ hval dt hdt, if_neg hne1,
    book_meeting_spec req _ hval dt hdt, if_neg hne2]
  exact ⟨_, _, rfl, rfl, rfl, rfl, rfl, rfl, rfl, rfl, rfl, rfl, rfl, rfl⟩

/-! ## MCP Tool Bridge

`handle_call_tool` (mcp_server.py lines 142-561): six catalogued tools, each
wrapping one downstream HTTP call; every known-tool path returns a list of
text contents; an unknown tool name falls through to
`raise ValueError(f"Unknown tool: ...")`, modelled as `Except.error`. -/

/-- A tool-call argument value. -/
inductive AVal where
  | s (v : String)
  | n (v : Int)
deriving DecidableEq

abbrev ToolArgs := List (String × AVal)

def argGet (args : ToolArgs) (k : String) : Option AVal :=
  (args.find? (fun kv => kv.1 == k)).map (fun kv => kv.2)

/-- `arguments.get(k)` followed by Python truthiness, as used for the
required parameters (`if not phone_number or not message`, `if not all([...])`). -/
def argTruthy (args : ToolArgs) (k : String) : Bool :=
  match argGet args k with
  | some (AVal.s v) => !(v == "")
  | some (AVal.n v) => !(v == 0)
  | none => false

/-- One integration summary in the `/integrations/list` response. -/
structure IntegrationSummary where
  name : String
  provider : String
  type : String
  is_active : Bool
  is_connected : Bool
deriving DecidableEq

/-- The decoded JSON body of a downstream response, restricted to the fields
the bridge reads. -/
structure McpRespBody where
  success : Bool
  message : String
  sid : Option String
  recipient : Option String
  meeting_id : Option String
  join_url : Option String
  password : Option String
  integrations : List IntegrationSummary
  integrations_used : List String
  booking_id : Option String
  booking_link : Option String
  detail : String
deriving DecidableEq

/-- One downstream HTTP call as the bridge sees it: a response, or one of the
`httpx` exceptions its handlers distinguish. -/
inductive HttpOutcome where
  | resp (status : Nat) (body : McpRespBody)
  | timeoutExc (msg : String)
  | requestExc (msg : String)
  | otherExc (msg : String)
deriving DecidableEq

/-- The per-invocation context of the bridge: the auth value stored in the
context variable, and the outcome of each downstream call it could make. -/
structure McpEnv where
  auth : Option String
  listResp : HttpOutcome
  smsResp : HttpOutcome
  emailResp : HttpOutcome
  zoomResp : HttpOutcome
  bookResp : HttpOutcome
  zohoListResp : HttpOutcome
  zohoDetailResp : HttpOutcome
  zohoCreateResp : HttpOutcome
deriving DecidableEq

/-- `get_auth_headers` (mcp_server.py lines 26-43): empty when no auth value
is stored; a bearer header for a JWT (contains a dot), an organization-id
header otherwise. -/
def get_auth_headers (auth : Option String) : Option (String × String) :=
  match auth with
  | none => none
  | some a =>
    if a.contains '.' then some ("Authorization", "Bearer " ++ a)
    else some ("X-Organization-ID", a)

def mcpToolNames : List String :=
  ["list_available_integrations", "send_sms", "send_email", "create_zoom_meeting",
   "book_meeting", "book_zoho_meeting"]

def handle_call_tool (name : String) (args : ToolArgs) (env : McpEnv) :
    Except String (List String) :=
  if name == "list_available_integrations" then
    match get_auth_headers env.auth with
    | none => .ok ["Error: Authentication not available"]
    | some _h =>
      match env.listResp with
      | .resp status body =>
        if status == 200 then
          let available := body.integrations.filter (fun i => i.is_connected && i.is_active)
          if available.isEmpty then
            .ok ["No integrations are currently connected. Please ask the admin to connect integrations in the settings panel."]
          else
            .ok ["Available integrations:
"
              ++ String.intercalate "
" (available.map (fun i => "- " ++ i.name))]
        else .ok ["Failed to list integrations: " ++ toString status]
      | .timeoutExc m => .ok ["Error: " ++ m]
      | .requestExc m => .ok ["Error: " ++ m]
      | .otherExc m => .ok ["Error: " ++ m]
  else if name == "send_sms" then
    if !(argTruthy args "phone_number" && argTruthy args "message") then
      .ok ["Error: Missing required parameters (phone_number or message)"]
    else
      match get_auth_headers env.auth with
      | none => .ok ["Error: Authentication not available"]
      | some _h =>
        match env.smsResp with
        | .resp status body =>
          if status == 200 then
            .ok ["SMS sent successfully. Message ID: " ++ body.sid.getD ""]
          else .ok ["Failed to send SMS: " ++ toString status]
        | .timeoutExc m => .ok ["Error: " ++ m]
        | .requestExc m => .ok ["Error: " ++ m]
        | .otherExc m => .ok ["Error: " ++ m]
  else if name == "send_email" then
    if !(argTruthy args "to_email" && argTruthy args "subject" && argTruthy args "body") then
      .ok ["Error: Missing required parameters (to_email, subject, or body)"]
    else
      match get_auth_headers env.auth with
      | none => .ok ["Error: Authentication not available"]
      | some _h =>
        match env.emailResp with
        | .resp status body =>
          if status == 200 then
            .ok ["Email sent successfully to " ++ body.recipient.getD ""]
          else .ok ["Failed to send email: " ++ toString status]
        | .timeoutExc m => .ok ["Error: " ++ m]
        | .requestExc m => .ok ["Error: " ++ m]
        | .otherExc m => .ok ["Error: " ++ m]
  else if name == "create_zoom_meeting" then
    if !(argTruthy args "topic" && argTruthy args "start_time") then
      .ok ["Error: Missing required parameters (topic or start_time)"]
    else
      match get_auth_headers env.auth with
      | none => .ok ["Error: Authentication not available"]
      | some _h =>
        match env.zoomResp with
        | .resp status body =>
          if status == 200 then
            if body.success then
              .ok ["Meeting created successfully. The meeting ID is " ++ body.meeting_id.getD ""
                ++ " and the join link is " ++ body.join_url.getD "" ++ "."]
            else .ok [body.message]
          else .ok ["Failed to create Zoom meeting: " ++ toString status]
        | .timeoutExc m => .ok ["Error: " ++ m]
        | .requestExc m => .ok ["Error: " ++ m]
        | .otherExc m => .ok ["Error: " ++ m]
  else if name == "book_meeting" then
    if !(argTruthy args "customer_name" && argTruthy args "customer_email"
        && argTruthy args "booking_date" && argTruthy args "booking_time") then
      .ok ["Error: Missing required parameters. Need: customer_name, customer_email, booking_date, booking_time"]
    else
      match get_auth_headers env.auth with
      | none => .ok ["Error: Authentication token not available"]
      | some _h =>
        match env.bookResp with
        | .resp status body =>
          if status == 200 then
            if body.success then
              .ok ["Meeting booked successfully via "
                ++ String.intercalate ", " body.integrations_used ++ "!"]
            else .ok [body.message]
          else if status == 404 then
            .ok ["No meeting integrations are currently connected. Please ask the admin to connect at least one integration (Zoom, Google Calendar, Calendly, or Zoho Bookings) in the settings panel."]
          else if status == 400 then
            .ok ["Booking validation error: " ++ body.detail]
          else if status == 500 then
            .ok ["The booking system encountered an internal error. Please try again in a moment."]
          else
            .ok ["Failed to book meeting (status " ++ toString status
              ++ "). Please try again or contact support."]
        | .timeoutExc _ => .ok ["The booking system is taking too long to respond. Please try again."]
        | .requestExc _ => .ok ["Unable to connect to the booking system. Please check if the service is running."]
        | .otherExc _ => .ok ["An unexpected error occurred while booking the meeting. Please try again."]
  else if name == "book_zoho_meeting" then
    if !(argTruthy args "customer_name" && argTruthy args "customer_email"
        && argTruthy args "booking_date" && argTruthy args "booking_time") then
      .ok ["Error: Missing required parameters. Need: customer_name, customer_email, booking_date, booking_time"]
    else
      match get_auth_headers env.auth with
      | none => .ok ["Error: Authentication not available"]
      | some _h =>
        match env.zohoListResp with
        | .resp lstatus lbody =>
          if !(lstatus == 200) then
            .ok ["Error: Failed to fetch integration settings. Please ensure Zoho Bookings is connected in admin settings."]
          else
            match lbody.integrations.find?
                (fun i => i.provider == "zoho_bookings" && i.is_connected) with
            | none =>
              .ok ["Error: Zoho Bookings integration is not connected. Please ask the admin to connect Zoho Bookings in the settings panel."]
            | some _zoho =>
              match env.zohoDetailResp with
              | .resp dstatus _dbody =>
                if !(dstatus == 200) then
                  .ok ["Error: Failed to fetch Zoho Bookings configuration. Please ensure service and staff IDs are configured in admin settings."]
                else
                  match env.zohoCreateResp with
                  | .resp cstatus cbody =>
                    if cstatus == 200 then
                      if cbody.success then
                        .ok ["Appointment booked successfully. Booking ID is "
                          ++ cbody.booking_id.getD "" ++ "."]
                      else .ok [cbody.message]
                    else .ok ["Failed to create Zoho booking: " ++ toString cstatus]
                  | .timeoutExc m => .ok ["Error: " ++ m]
                  | .requestExc m => .ok ["Error: " ++ m]
                  | .otherExc m => .ok ["Error: " ++ m]
              | .timeoutExc m => .ok ["Error: " ++ m]
              | .requestExc m => .ok ["Error: " ++ m]
              | .otherExc m => .ok ["Error: " ++ m]
        | .timeoutExc m => .ok ["Error: " ++ m]
        | .requestExc m => .ok ["Error: " ++ m]
        | .otherExc m => .ok ["Error: " ++ m]
  else
    .error ("Unknown tool: " ++ name)

/-- C9 (amended): every invocation of a CATALOGUED tool returns a list of
text contents on every path — missing auth, missing parameters, any response
status, any raised `httpx` exception; but an invocation with an unknown tool
name raises (`ValueError`), so total error containment holds only over the
six-tool catalogue, not for arbitrary tool names. -/
theorem handle_call_tool_total_on_catalogue (args : ToolArgs) (env : McpEnv) :
    (∀ name, name ∈ mcpToolNames → (handle_call_tool name args env).isOk = true)
    ∧ (∀ name, name ∉ mcpToolNames →
        handle_call_tool name args env = .error ("Unknown tool: " ++ name)) := by
  constructor
  · intro name h
    simp only [mcpToolNames, List.mem_cons, List.not_mem_nil, or_false] at h
    rcases h with h | h | h | h | h | h <;> subst h <;>
      (simp only [handle_call_tool, String.reduceBEq, reduceIte, beq_self_eq_true, if_true]
       repeat' split
       all_goals rfl)
  · intro name h
    simp only [mcpToolNames, List.mem_cons, List.not_mem_nil, or_false] at h
    push_neg at h
    obtain ⟨h1, h2, h3, h4, h5, h6⟩ := h
    simp [handle_call_tool, h1, h2, h3, h4, h5, h6]

def c9Body : McpRespBody :=
  { success := false, message := "", sid := none, recipient := none, meeting_id := none,
    join_url := none, password := none, integrations := [], integrations_used := [],
    booking_id := none, booking_link := none, detail := "" }

def c9Env : McpEnv :=
  { auth := some "org123", listResp := .resp 200 c9Body, smsResp := .resp 200 c9Body,
    emailResp := .resp 200 c9Body, zoomResp := .resp 200 c9Body,
    bookResp := .resp 200 c9Body, zohoListResp := .resp 200 c9Body,
    zohoDetailResp := .resp 200 c9Body, zohoCreateResp := .resp 200 c9Body }

/-- C9 counterexample: invoked with the tool name "get_weather" — any name
outside the catalogue — `handle_call_tool` does not return a text result: it
reaches `raise ValueError(f"Unknown tool: {name}")` and the exception crosses
the tool boundary, refuting "for any tool name ... never lets an exception
propagate". -/
theorem handle_call_tool_unknown_raises_cex :
    handle_call_tool "get_weather" [] c9Env = .error "Unknown tool: get_weather"
    ∧ (handle_call_tool "get_weather" [] c9Env).isOk = false := by
  exact ⟨rfl, rfl⟩

/-! ## Claim witnesses and combined statements -/

/-- C7: combined single-row/idempotence statement for an interactive-OAuth
provider (`connect_calendly`) and an API-key-style provider
(`store_zoom_credentials`): two connects leave exactly one row per
(org, type, provider), holding the second call's credentials, and a retry
with identical input is a no-op. -/
theorem connect_idempotent_single_row (db : List IntegrationRow) (org : Nat)
    (req1 req2 : ConnectOAuthRequest) (s1 s2 sub1 sub2 now1 now2 : String)
    (fid1 fid2 : Nat) (zreq1 zreq2 : ZoomCredentialsRequest) (zfid1 zfid2 : Nat)
    (h : db.find? (matchKey org "meeting" "calendly") = none)
    (hz : db.find? (matchKey org "meeting" "zoom") = none) :
    ((((connect_calendly (connect_calendly db org req1 s1 sub1 now1 fid1).1
        org req2 s2 sub2 now2 fid2).1).countP (matchKey org "meeting" "calendly") = 1)
      ∧ (∃ r, ((connect_calendly (connect_calendly db org req1 s1 sub1 now1 fid1).1
            org req2 s2 sub2 now2 fid2).1).find? (matchKey org "meeting" "calendly") = some r
          ∧ r.config = some (calendlyCredentialsData req2 s2 sub2 now2) ∧ r.id = fid1)
      ∧ connect_calendly (connect_calendly db org req1 s1 sub1 now1 fid1).1
          org req1 s1 sub1 now1 fid1 = connect_calendly db org req1 s1 sub1 now1 fid1)
    ∧ (((store_zoom_credentials (store_zoom_credentials db org zreq1 zfid1).1
          org zreq2 zfid2).1.countP (matchKey org "meeting" "zoom") = 1)
      ∧ (∃ r, (store_zoom_credentials (store_zoom_credentials db org zreq1 zfid1).1
            org zreq2 zfid2).1.find? (matchKey org "meeting" "zoom") = some r
          ∧ r.config = some (zoomCredentialsData zreq2) ∧ r.id = zfid1)
      ∧ store_zoom_credentials (store_zoom_credentials db org zreq1 zfid1).1 org zreq1 zfid1
          = store_zoom_credentials db org zreq1 zfid1) :=
  ⟨connect_calendly_single_row db org req1 req2 s1 s2 sub1 sub2 now1 now2 fid1 fid2 h,
   store_zoom_credentials_single_row db org zreq1 zreq2 zfid1 zfid2 hz⟩

def w7Req1 : ConnectOAuthRequest :=
  { client_id := some "cid1", client_secret := some "sec1", environment := none }

def w7Req2 : ConnectOAuthRequest :=
  { client_id := some "cid2", client_secret := some "sec2", environment := some "sandbox" }

theorem connect_idempotent_single_row_witness :
    ((((connect_calendly (connect_calendly [] 1 w7Req1 "stA" "u1" "t1" 11).1
        1 w7Req2 "stB" "u1" "t2" 12).1).countP (matchKey 1 "meeting" "calendly") = 1)
      ∧ (∃ r, ((connect_calendly (connect_calendly [] 1 w7Req1 "stA" "u1" "t1" 11).1
            1 w7Req2 "stB" "u1" "t2" 12).1).find? (matchKey 1 "meeting" "calendly") = some r
          ∧ r.config = some (calendlyCredentialsData w7Req2 "stB" "u1" "t2") ∧ r.id = 11)
      ∧ connect_calendly (connect_calendly [] 1 w7Req1 "stA" "u1" "t1" 11).1
          1 w7Req1 "stA" "u1" "t1" 11 = connect_calendly [] 1 w7Req1 "stA" "u1" "t1" 11)
    ∧ (((store_zoom_credentials (store_zoom_credentials [] 1 ⟨"acc", "zc1", "zs1"⟩ 21).1
          1 ⟨"acc", "zc2", "zs2"⟩ 22).1.countP (matchKey 1 "meeting" "zoom") = 1)
      ∧ (∃ r, (store_zoom_credentials (store_zoom_credentials [] 1 ⟨"acc", "zc1", "zs1"⟩ 21).1
            1 ⟨"acc", "zc2", "zs2"⟩ 22).1.find? (matchKey 1 "meeting" "zoom") = some r
          ∧ r.config = some (zoomCredentialsData ⟨"acc", "zc2", "zs2"⟩) ∧ r.id = 21)
      ∧ store_zoom_credentials (store_zoom_credentials [] 1 ⟨"acc", "zc1", "zs1"⟩ 21).1
          1 ⟨"acc", "zc1", "zs1"⟩ 21 = store_zoom_credentials [] 1 ⟨"acc", "zc1", "zs1"⟩ 21) :=
  connect_idempotent_single_row [] 1 w7Req1 w7Req2 "stA" "stB" "u1" "u1" "t1" "t2" 11 12
    ⟨"acc", "zc1", "zs1"⟩ ⟨"acc", "zc2", "zs2"⟩ 21 22 rfl rfl

/-- An existing, soft-disabled and previously connected Calendly row, for the
C10 witness. -/
def w10CalRow : IntegrationRow :=
  { id := 31, organization_id := 1, name := "My Calendly", type := "meeting",
    provider := "calendly", config := some [("access_token", CVal.s "old")],
    is_active := false, is_connected := true, last_sync_at := some 5 }

/-- An existing, soft-disabled Google Calendar row, for the C10 witness. -/
def w10GoogRow : IntegrationRow :=
  { id := 32, organization_id := 1, name := "My GCal", type := "meeting",
    provider := "google_calendar", config := some [("access_token", CVal.s "old")],
    is_active := false, is_connected := true, last_sync_at := some 5 }

theorem connect_reenables_and_disconnects_witness :
    (∃ r, (connect_calendly [w10CalRow, w10GoogRow] 1 w7Req1 "stC" "u1" "t3" 40).1.find?
        (matchKey 1 "meeting" "calendly") = some r
      ∧ r.is_active = true ∧ r.is_connected = false
      ∧ r.config = some (calendlyCredentialsData w7Req1 "stC" "u1" "t3")
      ∧ r.id = w10CalRow.id ∧ r.name = w10CalRow.name)
    ∧ (∃ r, (connect_google_calendar [w10CalRow, w10GoogRow] 1 w7Req1 "stC" "u1" "t3" 40).1.find?
        (matchKey 1 "meeting" "google_calendar") = some r
      ∧ r.is_active = true ∧ r.is_connected = false
      ∧ r.config = some (googleCredentialsData w7Req1 "stC" "u1" "t3")
      ∧ r.id = w10GoogRow.id ∧ r.name = w10GoogRow.name) :=
  connect_reenables_and_disconnects [w10CalRow, w10GoogRow] 1 w7Req1 "stC" "u1" "t3" 40
    w10CalRow w10GoogRow rfl rfl

/-- Stored Calendly row mid-OAuth (state "st8" pending), for the C3 witness. -/
def c3Row : IntegrationRow :=
  { id := 9, organization_id := 1, name := "Calendly", type := "meeting",
    provider := "calendly",
    config := some [("client_id", CVal.s "cid"), ("client_secret", CVal.s "cs"),
      ("environment", CVal.s "production"), ("oauth_state", CVal.s "st8"),
      ("oauth_user_id", CVal.s "u1"), ("oauth_initiated_at", CVal.s "t0")],
    is_active := true, is_connected := false, last_sync_at := none }

def c3Td : TokenData :=
  { error := none, access_token := some "at1", refresh_token := some "rt1",
    expires_in := some 7200 }

def c3Env : OAuthExchangeEnv :=
  { exchange := .ok c3Td, userinfo := .error "users-me unavailable" }

theorem complete_oauth_csrf_one_shot_witness :
    complete_calendly_oauth [c3Row] 1 ⟨"code1", "WRONG"⟩ c3Env 100 "iso1"
      = .error (400, "Invalid state parameter. Possible CSRF attack.")
    ∧ (complete_calendly_oauth [c3Row] 1 ⟨"code1", "st8"⟩ c3Env 100 "iso1").isOk = true := by
  have h := complete_oauth_csrf_one_shot.1 [c3Row] 1 c3Row
    [("client_id", CVal.s "cid"), ("client_secret", CVal.s "cs"),
     ("environment", CVal.s "production"), ("oauth_state", CVal.s "st8"),
     ("oauth_user_id", CVal.s "u1"), ("oauth_initiated_at", CVal.s "t0")]
    "st8" c3Env c3Td "at1" 100 "iso1" "code1" rfl rfl rfl (by decide) rfl rfl rfl
  refine ⟨h.1 "WRONG" "code1" c3Env 100 "iso1" (by decide), ?_⟩
  obtain ⟨db2, res, heq, _⟩ := h.2
  rw [heq]
  rfl

/-- A fresh Google Calendar client holding the soon-to-expire stored token,
for the C5 witness. -/
def c5Client : GoogleCalendarClient :=
  { access_token := "old_token", refresh_token := "rtok", client_id := "cid",
    client_secret := "cs" }

theorem token_refresh_retry_once_witness :
    c5Client.create_event c5Env
      = .ok ("created_event",
          { access_token := "new_token", refresh_token := "rtok", client_id := "cid",
            client_secret := "cs" })
    ∧ (create_event_endpoint [c5Row] 1 c5Env).2 = [c5Row] := by
  have h := token_refresh_retry_once_in_memory
  refine ⟨?_, h.2.2.2 [c5Row] 1 c5Env⟩
  have h3 := h.2.2.1 c5Client c5Env "new_token" rfl rfl (by decide)
  exact h3

/-- An active AND connected Zoom row, for the C8 witness. -/
def w8Row : IntegrationRow :=
  { id := 5, organization_id := 1, name := "Zoom Meetings", type := "meeting",
    provider := "zoom", config := some [("account_id", CVal.s "acc")],
    is_active := true, is_connected := true, last_sync_at := none }

theorem connected_lookup_filters_witness :
    w8Row.is_active = true ∧ w8Row.is_connected = true
    ∧ (findBookingIntegration [w8Row] 1 "zoom" = some w8Row) := by
  refine ⟨?_, ?_, rfl⟩
  · exact (connected_lookup_filters.1 [w8Row] 1 "zoom" w8Row rfl).1
  · exact (connected_lookup_filters.1 [w8Row] 1 "zoom" w8Row rfl).2

theorem handle_call_tool_total_witness :
    (handle_call_tool "send_sms" [] c9Env).isOk = true
    ∧ handle_call_tool "fetch_lead" [] c9Env = .error "Unknown tool: fetch_lead" := by
  refine ⟨(handle_call_tool_total_on_catalogue [] c9Env).1 "send_sms" (by decide), ?_⟩
  exact (handle_call_tool_total_on_catalogue [] c9Env).2 "fetch_lead" (by decide)

def w1Env : BookEnv :=
  { zoom := .ok { meeting_id := "55", join_url := "https://zoom.example/j/55", password := some "p" },
    gcal := .notConnected,
    calendly := .raised "DecryptionError: bad key",
    zoho := .raised "Zoho Bookings service_id and staff_id must be configured",
    gmail := .notConnected }

theorem booking_fanout_independence_witness :
    ∃ r, book_meeting c1Req w1Env = .ok r
      ∧ r.success = true
      ∧ r.integrations_used = succeededProviders w1Env
      ∧ r.integration_errors = recordedErrors w1Env :=
  booking_fanout_independence c1Req w1Env rfl (2025, 12, 25, 14, 30) rfl (by decide)

theorem book_meeting_failure_characterization_witness :
    book_meeting c4Req c4Env
      = .error (500, "Failed to book meeting: time data does not match format") :=
  (book_meeting_failure_characterization c4Req c4Env).2.1 rfl rfl

theorem booking_email_best_effort_witness :
    ∃ rf ro,
      book_meeting c1Req { w1Env with gmail := GmailAttempt.sendRaised "SMTPAuthenticationError" } = .ok rf
      ∧ book_meeting c1Req { w1Env with gmail := GmailAttempt.sent } = .ok ro
      ∧ rf.email_sent = false ∧ ro.email_sent = true
      ∧ rf.success = true ∧ ro.success = true
      ∧ rf.zoom_meeting = ro.zoom_meeting
      ∧ rf.google_calendar = ro.google_calendar
      ∧ rf.calendly = ro.calendly
      ∧ rf.zoho_bookings = ro.zoho_bookings
      ∧ rf.integrations_used = ro.integrations_used
      ∧ rf.integration_errors = ro.integration_errors :=
  booking_email_best_effort c1Req w1Env "SMTPAuthenticationError" rfl
    (2025, 12, 25, 14, 30) rfl (by decide)

/-! ## Credential Vault: `encrypt_credentials` / `decrypt_credentials`

encryption.py: `encrypt` is `base64.b64encode(fernet.encrypt(json.dumps(c).encode()))`,
`decrypt` is `json.loads(fernet.decrypt(base64.b64decode(x)).decode())`.

The JSON layer (`json.dumps` with its default `ensure_ascii=True` escaping
and `", "`/`": "` separators, and `json.loads` on the canonical strings
`dumps` emits) and the base64 codec are implemented and verified below;
the Fernet cipher is an external library primitive and enters as a pair of
byte-level functions with a round-trip hypothesis. Python floats (IEEE) and
strings containing lone surrogates are outside the value domain `JVal`;
dictionaries are association lists, well-formed (`jwf`) when every object
level has no duplicate keys — exactly the maps a Python `dict` can hold. -/

/-- A JSON-serializable Python value (no floats; strings are lists of
Unicode scalar values; objects keep insertion order). -/
inductive JVal : Type where
  | jnull : JVal
  | jbool : Bool → JVal
  | jint : Int → JVal
  | jstr : List Char → JVal
  | jarr : List JVal → JVal
  | jobj : List (List Char × JVal) → JVal

mutual
def msize : JVal → Nat
  | .jnull => 1
  | .jbool _ => 1
  | .jint _ => 1
  | .jstr _ => 1
  | .jarr xs => 1 + msizeL xs
  | .jobj kvs => 1 + msizeO kvs
def msizeL : List JVal → Nat
  | [] => 0
  | x :: t => msize x + msizeL t
def msizeO : List (List Char × JVal) → Nat
  | [] => 0
  | kv :: t => msize kv.2 + msizeO t
end

/-- Is `k` a key of the association list? -/
def keyMem (k : List Char) : List (List Char × JVal) → Bool
  | [] => false
  | kv :: t => kv.1 == k || keyMem k t

/-- No key occurs twice (what a Python `dict` guarantees). -/
def keysFresh : List (List Char × JVal) → Bool
  | [] => true
  | kv :: t => !(keyMem kv.1 t) && keysFresh t

mutual
/-- Well-formed value: every nested object has pairwise-distinct keys. -/
def jwf : JVal → Bool
  | .jnull => true
  | .jbool _ => true
  | .jint _ => true
  | .jstr _ => true
  | .jarr xs => jwfL xs
  | .jobj kvs => keysFresh kvs && jwfO kvs
def jwfL : List JVal → Bool
  | [] => true
  | x :: t => jwf x && jwfL t
def jwfO : List (List Char × JVal) → Bool
  | [] => true
  | kv :: t => jwf kv.2 && jwfO t
end

/-- `d[k] = v` on an association list, with Python-dict semantics. -/
def objSet (m : List (List Char × JVal)) (k : List Char) (v : JVal) :
    List (List Char × JVal) :=
  if keyMem k m then m.map (fun kv => if kv.1 == k then (k, v) else kv)
  else m ++ [(k, v)]

/-- `dict(pairs)`: left fold of insertions (first-occurrence position, last
value wins) — what `json.loads` builds from the parsed members. -/
def objFromPairs (l : List (List Char × JVal)) : List (List Char × JVal) :=
  l.foldl (fun acc kv => objSet acc kv.1 kv.2) []

theorem keyMem_append (k : List Char) (a b : List (List Char × JVal)) :
    keyMem k (a ++ b) = (keyMem k a || keyMem k b) := by
  induction a with
  | nil => simp [keyMem]
  | cons kv t ih => simp [keyMem, ih, Bool.or_assoc]

theorem keyMem_of_mem (kv : List Char × JVal) (t : List (List Char × JVal))
    (h : kv ∈ t) : keyMem kv.1 t = true := by
  induction t with
  | nil => simp at h
  | cons kv3 t3 ih =>
      rcases List.mem_cons.mp h with h5 | h5
      · subst h5; simp [keyMem]
      · simp [keyMem, ih h5]

theorem objFromPairs_aux (l : List (List Char × JVal)) :
    ∀ acc, keysFresh l = true → (∀ kv ∈ l, keyMem kv.1 acc = false) →
    List.foldl (fun a kv => objSet a kv.1 kv.2) acc l = acc ++ l := by
  induction l with
  | nil => intro acc _ _; simp
  | cons kv t ih =>
      intro acc hfresh hdisj
      simp only [keysFresh, Bool.and_eq_true, Bool.not_eq_eq_eq_not, Bool.not_true] at hfresh
      have hmem : keyMem kv.1 acc = false := hdisj kv (by simp)
      have hstep : objSet acc kv.1 kv.2 = acc ++ [(kv.1, kv.2)] := by
        simp [objSet, hmem]
      simp only [List.foldl_cons, hstep]
      rw [ih (acc ++ [(kv.1, kv.2)]) hfresh.2]
      · simp
      · intro kv2 h2
        rw [keyMem_append]
        have h3 : keyMem kv2.1 acc = false := hdisj kv2 (by simp [h2])
        have h4 : (kv.1 == kv2.1) = false := by
          by_contra hc
          simp only [Bool.not_eq_false, beq_iff_eq] at hc
          have h6 : keyMem kv.1 t = true := by
            rw [hc]; exact keyMem_of_mem kv2 t h2
          rw [hfresh.1] at h6
          exact Bool.false_ne_true h6
        simp [keyMem, h3, h4]

theorem objFromPairs_id (l : List (List Char × JVal)) (h : keysFresh l = true) :
    objFromPairs l = l := by
  unfold objFromPairs
  rw [objFromPairs_aux l [] h (fun kv _ => rfl)]
  simp

/-- Lowercase hex digit, as CPython's `%04x` formatting uses. -/
def hexDigit (n : Nat) : Char :=
  if n < 10 then Char.ofNat (48 + n) else Char.ofNat (87 + n)

/-- A `\\uXXXX` escape (4 lowercase hex digits). -/
def uEsc (n : Nat) : List Char :=
  ['\\', 'u', hexDigit (n / 4096 % 16), hexDigit (n / 256 % 16),
   hexDigit (n / 16 % 16), hexDigit (n % 16)]

/-- CPython's `py_encode_basestring_ascii`, per character: the two quoted
specials, the five short escapes, `\\u` escapes for other control characters
and for everything non-ASCII (with a surrogate pair above U+FFFF), the
character itself otherwise. -/
def escChar (c : Char) : List Char :=
  if c = '"' then ['\\', '"']
  else if c = '\\' then ['\\', '\\']
  else if c = '\n' then ['\\', 'n']
  else if c = '\r' then ['\\', 'r']
  else if c = '\t' then ['\\', 't']
  else if c.toNat = 8 then ['\\', 'b']
  else if c.toNat = 12 then ['\\', 'f']
  else if c.toNat < 32 then uEsc c.toNat
  else if c.toNat < 127 then [c]
  else if c.toNat < 65536 then uEsc c.toNat
  else uEsc (55296 + (c.toNat - 65536) / 1024) ++ uEsc (56320 + (c.toNat - 65536) % 1024)

def escStr : List Char → List Char
  | [] => []
  | c :: t => escChar c ++ escStr t

/-- A JSON string literal: quote, escaped body, quote. -/
def prStr (s : List Char) : List Char := '"' :: (escStr s ++ ['"'])

def digitChar (n : Nat) : Char := Char.ofNat (48 + n)

/-- Decimal digits of a natural number (`repr`). -/
def natToChars (n : Nat) : List Char :=
  if h : n < 10 then [digitChar n]
  else natToChars (n / 10) ++ [digitChar (n % 10)]
termination_by n
decreasing_by
  simp only [not_lt] at h
  omega

/-- Python `repr` of an int. -/
def prInt : Int → List Char
  | .ofNat n => natToChars n
  | .negSucc m => '-' :: natToChars (m + 1)

mutual
/-- `json.dumps` with its defaults (`ensure_ascii=True`, separators
`", "` and `": "`), on the character level. -/
def prVal : JVal → List Char
  | .jnull => ['n', 'u', 'l', 'l']
  | .jbool true => ['t', 'r', 'u', 'e']
  | .jbool false => ['f', 'a', 'l', 's', 'e']
  | .jint i => prInt i
  | .jstr s => prStr s
  | .jarr [] => ['[', ']']
  | .jarr (x :: t) => '[' :: (prElems x t ++ [']'])
  | .jobj [] => ['{', '}']
  | .jobj (kv :: t) => '{' :: (prMembers kv t ++ ['}'])
termination_by v => sizeOf v
def prElems : JVal → List JVal → List Char
  | x, [] => prVal x
  | x, y :: t => prVal x ++ [',', ' '] ++ prElems y t
termination_by x t => sizeOf x + sizeOf t
def prMembers : (List Char × JVal) → List (List Char × JVal) → List Char
  | (k, v), [] => prStr k ++ [':', ' '] ++ prVal v
  | (k, v), kv2 :: t => prStr k ++ [':', ' '] ++ prVal v ++ [',', ' '] ++ prMembers kv2 t
termination_by kv t => sizeOf kv + sizeOf t
end

def json_dumps (v : JVal) : List Char := prVal v

/-- Hex digit value; `json.loads` accepts both cases. -/
def hexVal (c : Char) : Option Nat :=
  if 48 ≤ c.toNat ∧ c.toNat ≤ 57 then some (c.toNat - 48)
  else if 97 ≤ c.toNat ∧ c.toNat ≤ 102 then some (c.toNat - 87)
  else if 65 ≤ c.toNat ∧ c.toNat ≤ 70 then some (c.toNat - 55)
  else none

def hex4 (a b c d : Nat) : Nat := a * 4096 + b * 256 + c * 16 + d

/-- The single-character escapes `json.loads` accepts after a backslash. -/
def escCode (e : Char) : Option Char :=
  if e = '"' then some '"'
  else if e = '\\' then some '\\'
  else if e = '/' then some '/'
  else if e = 'b' then some (Char.ofNat 8)
  else if e = 'f' then some (Char.ofNat 12)
  else if e = 'n' then some '\n'
  else if e = 'r' then some '\r'
  else if e = 't' then some '\t'
  else none

/-- Read a `\\uXXXX` low surrogate off the front of the input. -/
def parseLowSurrogate : List Char → Option (Nat × List Char)
  | e2 :: u2 :: a2 :: b2 :: c3 :: d2 :: r4 =>
    if e2 = '\\' ∧ u2 = 'u' then
      match hexVal a2, hexVal b2, hexVal c3, hexVal d2 with
      | some wa, some wb, some wc, some wd =>
        if 56320 ≤ hex4 wa wb wc wd ∧ hex4 wa wb wc wd < 57344 then
          some (hex4 wa wb wc wd, r4)
        else none
      | _, _, _, _ => none
    else none
  | _ => none

/-- Decode one backslash escape (the backslash itself already consumed):
a short escape, a `\\uXXXX` code unit, or a surrogate pair. A lone
surrogate is rejected (it has no `Char`). Non-recursive. -/
def parseEscape : List Char → Option (Char × List Char)
  | [] => none
  | e :: r2 =>
    if e = 'u' then
      match r2 with
      | a :: b :: c2 :: d :: r3 =>
        match hexVal a, hexVal b, hexVal c2, hexVal d with
        | some va, some vb, some vc, some vd =>
          if 55296 <= hex4 va vb vc vd /\ hex4 va vb vc vd < 56320 then
            match parseLowSurrogate r3 with
            | some (lo, r4) =>
                some (Char.ofNat (65536 + (hex4 va vb vc vd - 55296) * 1024
                  + (lo - 56320)), r4)
            | none => none
          else if 56320 <= hex4 va vb vc vd /\ hex4 va vb vc vd < 57344 then none
          else some (Char.ofNat (hex4 va vb vc vd), r3)
        | _, _, _, _ => none
      | _ => none
    else
      match escCode e with
      | some ec => some (ec, r2)
      | none => none

theorem parseLowSurrogate_length (r : List Char) (lo : Nat) (r4 : List Char)
    (h : parseLowSurrogate r = some (lo, r4)) : r4.length < r.length := by
  match r with
  | [] => simp [parseLowSurrogate] at h
  | [x1] => simp [parseLowSurrogate] at h
  | [x1, x2] => simp [parseLowSurrogate] at h
  | [x1, x2, x3] => simp [parseLowSurrogate] at h
  | [x1, x2, x3, x4] => simp [parseLowSurrogate] at h
  | [x1, x2, x3, x4, x5] => simp [parseLowSurrogate] at h
  | x1 :: x2 :: x3 :: x4 :: x5 :: x6 :: rr =>
    simp only [parseLowSurrogate] at h
    repeat' split at h
    all_goals simp_all
    all_goals omega

theorem parseEscape_some_length (r : List Char) (ec : Char) (r2 : List Char)
    (h : parseEscape r = some (ec, r2)) : r2.length < r.length := by
  match r with
  | [] => simp [parseEscape] at h
  | e :: rr =>
    simp only [parseEscape] at h
    repeat' split at h
    all_goals simp_all
    all_goals try omega
    next lo r4 hlow2 =>
      have := parseLowSurrogate_length _ _ _ hlow2
      simp_all
      omega

/-- CPython's `py_scanstring` on the canonical strings `dumps` emits: read
characters until the closing quote, decoding backslash escapes via
`parseEscape`. Returns the decoded string and the input after the quote. -/
def parseStringBody : List Char → Option (List Char × List Char)
  | [] => none
  | c :: r =>
    if c = '"' then some ([], r)
    else if c = '\\' then
      match hpe : parseEscape r with
      | some (ec, r2) =>
        match parseStringBody r2 with
        | some (s, rest) => some (ec :: s, rest)
        | none => none
      | none => none
    else
      match parseStringBody r with
      | some (s, rest) => some (c :: s, rest)
      | none => none
termination_by r => r.length
decreasing_by
  · have := parseEscape_some_length _ _ _ hpe
    simp
    omega
  · simp

/-- The maximal leading digit run and the remainder. -/
def spanDigits : List Char → List Char × List Char
  | [] => ([], [])
  | c :: r =>
    if isDigitCh c then
      match spanDigits r with
      | (d, rest) => (c :: d, rest)
    else ([], c :: r)

/-- `true` when the input does not begin with a digit (so a preceding number
literal cannot be extended by it). -/
def notDigitStart : List Char → Bool
  | [] => true
  | c :: _ => !(isDigitCh c)

mutual
/-- Recursive-descent value parser for the canonical serialization `dumps`
emits (no whitespace variants, no floats); fuel bounds the nesting. -/
def parseVal : Nat → List Char → Option (JVal × List Char)
  | 0, _ => none
  | _ + 1, [] => none
  | fuel + 1, c :: r =>
    if c = 'n' then
      match r with
      | 'u' :: 'l' :: 'l' :: r2 => some (.jnull, r2)
      | _ => none
    else if c = 't' then
      match r with
      | 'r' :: 'u' :: 'e' :: r2 => some (.jbool true, r2)
      | _ => none
    else if c = 'f' then
      match r with
      | 'a' :: 'l' :: 's' :: 'e' :: r2 => some (.jbool false, r2)
      | _ => none
    else if c = '"' then
      match parseStringBody r with
      | some (s, rest) => some (.jstr s, rest)
      | none => none
    else if c = '[' then
      match r with
      | [] => none
      | c2 :: r2 =>
        if c2 = ']' then some (.jarr [], r2)
        else
          match parseElemsP fuel (c2 :: r2) with
          | some (xs, rest) => some (.jarr xs, rest)
          | none => none
    else if c = '{' then
      match r with
      | [] => none
      | c2 :: r2 =>
        if c2 = '}' then some (.jobj [], r2)
        else
          match parseMembersP fuel (c2 :: r2) with
          | some (kvs, rest) => some (.jobj (objFromPairs kvs), rest)
          | none => none
    else if c = '-' then
      match spanDigits r with
      | ([], _) => none
      | (ds, rest) => some (.jint (-(digitsVal ds : Int)), rest)
    else if isDigitCh c then
      match spanDigits (c :: r) with
      | (ds, rest) => some (.jint (digitsVal ds), rest)
    else none

/-- Elements of a nonempty array, consuming the closing `]`. -/
def parseElemsP : Nat → List Char → Option (List JVal × List Char)
  | 0, _ => none
  | fuel + 1, input =>
    match parseVal fuel input with
    | none => none
    | some (v, r) =>
      match r with
      | ']' :: r2 => some ([v], r2)
      | ',' :: ' ' :: r2 =>
        match parseElemsP fuel r2 with
        | some (vs, rest) => some (v :: vs, rest)
        | none => none
      | _ => none

/-- Members of a nonempty object, consuming the closing right brace. -/
def parseMembersP : Nat → List Char → Option (List (List Char × JVal) × List Char)
  | 0, _ => none
  | fuel + 1, input =>
    match input with
    | '"' :: r =>
      match parseStringBody r with
      | none => none
      | some (k, r2) =>
        match r2 with
        | ':' :: ' ' :: r3 =>
          match parseVal fuel r3 with
          | none => none
          | some (v, r4) =>
            match r4 with
            | '}' :: r5 => some ([(k, v)], r5)
            | ',' :: ' ' :: r5 =>
              match parseMembersP fuel r5 with
              | some (kvs, rest) => some ((k, v) :: kvs, rest)
              | none => none
            | _ => none
        | _ => none
    | _ => none
end

/-- `json.loads` on the canonical strings `dumps` produces: parse one value
consuming the entire input. -/
def json_loads (s : List Char) : Option JVal :=
  match parseVal (s.length + 1) s with
  | some (v, []) => some v
  | _ => none

/-! ### Round-trip of the numeric and string codecs -/

theorem char_valid_nat (c : Char) :
    c.toNat < 55296 ∨ (57343 < c.toNat ∧ c.toNat < 1114112) := by
  have h := c.valid
  unfold UInt32.isValidChar Nat.isValidChar at h
  exact h

theorem toNat_ofNat_valid (n : Nat) (h : Nat.isValidChar n) :
    (Char.ofNat n).toNat = n := by
  rw [Char.ofNat, dif_pos h]
  rfl

theorem toNat_ofNat_small (n : Nat) (h : n < 55296) : (Char.ofNat n).toNat = n :=
  toNat_ofNat_valid n (Or.inl h)

theorem hexVal_hexDigit (n : Nat) (h : n < 16) : hexVal (hexDigit n) = some n := by
  interval_cases n <;> decide

theorem digitChar_toNat (n : Nat) (h : n < 10) : (digitChar n).toNat = 48 + n := by
  unfold digitChar
  exact toNat_ofNat_small _ (by omega)

theorem digitChar_isDigit (n : Nat) (h : n < 10) : isDigitCh (digitChar n) = true := by
  simp [isDigitCh, digitChar_toNat n h]
  omega

theorem natToChars_digits (n : Nat) :
    natToChars n ≠ [] ∧ (natToChars n).all isDigitCh = true := by
  induction n using Nat.strong_induction_on with
  | _ n ih =>
    by_cases h : n < 10
    · rw [natToChars, dif_pos h]
      simp [digitChar_isDigit n h]
    · rw [natToChars, dif_neg h]
      have hd := ih (n / 10) (by omega)
      constructor
      · simp
      · simp only [List.all_append, hd.2, Bool.true_and, List.all_cons, List.all_nil,
          Bool.and_true]
        exact digitChar_isDigit (n % 10) (by omega)

theorem natToChars_head_digit (n : Nat) :
    ∃ c r, natToChars n = c :: r ∧ isDigitCh c = true := by
  obtain ⟨h1, h2⟩ := natToChars_digits n
  match hm : natToChars n with
  | [] => exact absurd hm h1
  | c :: r =>
    refine ⟨c, r, rfl, ?_⟩
    rw [hm] at h2
    simp only [List.all_cons, Bool.and_eq_true] at h2
    exact h2.1

theorem digitsVal_natToChars (n : Nat) : digitsVal (natToChars n) = n := by
  induction n using Nat.strong_induction_on with
  | _ n ih =>
    by_cases h : n < 10
    · rw [natToChars, dif_pos h]
      simp [digitsVal, digitChar_toNat n h]
    · rw [natToChars, dif_neg h]
      unfold digitsVal
      rw [List.foldl_append]
      have hd := ih (n / 10) (by omega)
      unfold digitsVal at hd
      rw [hd]
      simp only [List.foldl_cons, List.foldl_nil]
      rw [digitChar_toNat (n % 10) (by omega)]
      omega

theorem spanDigits_append (l r : List Char) (hl : l.all isDigitCh = true)
    (hr : notDigitStart r = true) : spanDigits (l ++ r) = (l, r) := by
  induction l with
  | nil =>
      simp only [List.nil_append]
      match r with
      | [] => rfl
      | c :: t =>
        simp only [notDigitStart, Bool.not_eq_eq_eq_not, Bool.not_true] at hr
        simp [spanDigits, hr]
  | cons d l2 ih =>
      simp only [List.all_cons, Bool.and_eq_true] at hl
      simp [spanDigits, hl.1, ih hl.2]

theorem hex4_digits (n : Nat) (h : n < 65536) :
    hex4 (n / 4096 % 16) (n / 256 % 16) (n / 16 % 16) (n % 16) = n := by
  unfold hex4
  omega

theorem parseEscape_u (n : Nat) (R : List Char)
    (hn : n < 65536) (hlow : ¬(55296 ≤ n ∧ n < 56320)) (hhigh : ¬(56320 ≤ n ∧ n < 57344)) :
    parseEscape ('u' :: (hexDigit (n / 4096 % 16) :: hexDigit (n / 256 % 16)
      :: hexDigit (n / 16 % 16) :: hexDigit (n % 16) :: R)) = some (Char.ofNat n, R) := by
  simp only [parseEscape, reduceIte,
    hexVal_hexDigit (n / 4096 % 16) (by omega), hexVal_hexDigit (n / 256 % 16) (by omega),
    hexVal_hexDigit (n / 16 % 16) (by omega), hexVal_hexDigit (n % 16) (by omega),
    hex4_digits n hn]
  rw [if_neg hlow, if_neg hhigh]

theorem parseLowSurrogate_uEsc (m : Nat) (R : List Char)
    (h1 : 56320 ≤ m) (h2 : m < 57344) :
    parseLowSurrogate (uEsc m ++ R) = some (m, R) := by
  simp only [uEsc, List.cons_append]
  simp only [parseLowSurrogate, reduceIte,
    hexVal_hexDigit (m / 4096 % 16) (by omega), hexVal_hexDigit (m / 256 % 16) (by omega),
    hexVal_hexDigit (m / 16 % 16) (by omega), hexVal_hexDigit (m % 16) (by omega),
    hex4_digits m (by omega)]
  rw [if_pos (by constructor <;> decide)]
  rw [if_pos ⟨h1, h2⟩, List.nil_append]

theorem parseEscape_highSurr (hi lo : Nat) (Rr r4 : List Char)
    (h1 : 55296 ≤ hi) (h2 : hi < 56320)
    (hlow : parseLowSurrogate Rr = some (lo, r4)) :
    parseEscape ('u' :: (hexDigit (hi / 4096 % 16) :: hexDigit (hi / 256 % 16)
      :: hexDigit (hi / 16 % 16) :: hexDigit (hi % 16) :: Rr))
      = some (Char.ofNat (65536 + (hi - 55296) * 1024 + (lo - 56320)), r4) := by
  simp only [parseEscape, reduceIte,
    hexVal_hexDigit (hi / 4096 % 16) (by omega), hexVal_hexDigit (hi / 256 % 16) (by omega),
    hexVal_hexDigit (hi / 16 % 16) (by omega), hexVal_hexDigit (hi % 16) (by omega),
    hex4_digits hi (by omega)]
  rw [if_pos ⟨h1, h2⟩, hlow]

theorem parseEscape_surrogates (n : Nat) (R : List Char)
    (hn : 65536 ≤ n) (hn2 : n < 1114112) :
    parseEscape ('u' :: (hexDigit ((55296 + (n - 65536) / 1024) / 4096 % 16)
      :: hexDigit ((55296 + (n - 65536) / 1024) / 256 % 16)
      :: hexDigit ((55296 + (n - 65536) / 1024) / 16 % 16)
      :: hexDigit ((55296 + (n - 65536) / 1024) % 16)
      :: (uEsc (56320 + (n - 65536) % 1024) ++ R)))
      = some (Char.ofNat n, R) := by
  have hmod : (n - 65536) % 1024 < 1024 := Nat.mod_lt _ (by omega)
  rw [parseEscape_highSurr (55296 + (n - 65536) / 1024) (56320 + (n - 65536) % 1024)
    (uEsc (56320 + (n - 65536) % 1024) ++ R) R (by omega) (by omega)
    (parseLowSurrogate_uEsc (56320 + (n - 65536) % 1024) R (by omega) (by omega))]
  have harith : 65536 + (55296 + (n - 65536) / 1024 - 55296) * 1024
      + (56320 + (n - 65536) % 1024 - 56320) = n := by omega
  rw [harith]

theorem parseStringBody_quote (r : List Char) :
    parseStringBody ('"' :: r) = some ([], r) := by
  simp [parseStringBody]

theorem parseStringBody_esc_step (r : List Char) (ec : Char) (r2 s rest : List Char)
    (hpe : parseEscape r = some (ec, r2))
    (hsb : parseStringBody r2 = some (s, rest)) :
    parseStringBody ('\\' :: r) = some (ec :: s, rest) := by
  simp only [parseStringBody]
  rw [if_neg (by decide : ¬('\\' = '"')), if_pos trivial]
  split
  next a b heq =>
    rw [hpe] at heq
    simp only [Option.some.injEq, Prod.mk.injEq] at heq
    obtain ⟨h1, h2⟩ := heq
    subst h1; subst h2
    rw [hsb]
  next heq =>
    rw [hpe] at heq
    simp at heq

theorem parseStringBody_plain_step (c : Char) (r s rest : List Char)
    (h1 : ¬ c = '"') (h2 : ¬ c = '\\')
    (hsb : parseStringBody r = some (s, rest)) :
    parseStringBody (c :: r) = some (c :: s, rest) := by
  simp only [parseStringBody, if_neg h1, if_neg h2, hsb]

theorem parseEscape_code (e ec : Char) (R : List Char)
    (he : ¬ e = 'u') (hc : escCode e = some ec) :
    parseEscape (e :: R) = some (ec, R) := by
  simp only [parseEscape, if_neg he, hc]

/-- Round-trip of the string-body codec: a `dumps`-escaped string followed by
the closing quote parses back to the original characters. -/
theorem parseStringBody_escStr (s : List Char) :
    ∀ rest, parseStringBody (escStr s ++ ('"' :: rest)) = some (s, rest) := by
  induction s with
  | nil =>
      intro rest
      simp only [escStr, List.nil_append]
      exact parseStringBody_quote rest
  | cons c t ih =>
      intro rest
      have hR := ih rest
      rw [escStr, List.append_assoc]
      by_cases h1 : c = '"'
      · subst h1
        rw [show escChar '"' = ['\\', '"'] from rfl]
        simp only [List.cons_append, List.nil_append]
        exact parseStringBody_esc_step _ _ _ _ _
          (parseEscape_code _ _ _ (by decide) (by decide)) hR
      · by_cases h2 : c = '\\'
        · subst h2
          rw [show escChar '\\' = ['\\', '\\'] from rfl]
          simp only [List.cons_append, List.nil_append]
          exact parseStringBody_esc_step _ _ _ _ _
            (parseEscape_code _ _ _ (by decide) (by decide)) hR
        · by_cases h3 : c = '\n'
          · subst h3
            rw [show escChar '\n' = ['\\', 'n'] from rfl]
            simp only [List.cons_append, List.nil_append]
            exact parseStringBody_esc_step _ _ _ _ _
              (parseEscape_code _ _ _ (by decide) (by decide)) hR
          · by_cases h4 : c = '\r'
            · subst h4
              rw [show escChar '\r' = ['\\', 'r'] from rfl]
              simp only [List.cons_append, List.nil_append]
              exact parseStringBody_esc_step _ _ _ _ _
                (parseEscape_code _ _ _ (by decide) (by decide)) hR
            · by_cases h5 : c = '\t'
              · subst h5
                rw [show escChar '\t' = ['\\', 't'] from rfl]
                simp only [List.cons_append, List.nil_append]
                exact parseStringBody_esc_step _ _ _ _ _
                  (parseEscape_code _ _ _ (by decide) (by decide)) hR
              · by_cases h6 : c.toNat = 8
                · have hc : c = Char.ofNat 8 := by rw [← h6, Char.ofNat_toNat]
                  have hesc : escChar c = ['\\', 'b'] := by
                    simp [escChar, h1, h2, h3, h4, h5, h6]
                  rw [hesc]
                  simp only [List.cons_append, List.nil_append]
                  rw [hc]
                  exact parseStringBody_esc_step _ _ _ _ _
                    (parseEscape_code _ _ _ (by decide) (by decide)) hR
                · by_cases h7 : c.toNat = 12
                  · have hc : c = Char.ofNat 12 := by rw [← h7, Char.ofNat_toNat]
                    have hesc : escChar c = ['\\', 'f'] := by
                      simp [escChar, h1, h2, h3, h4, h5, h6, h7]
                    rw [hesc]
                    simp only [List.cons_append, List.nil_append]
                    rw [hc]
                    exact parseStringBody_esc_step _ _ _ _ _
                      (parseEscape_code _ _ _ (by decide) (by decide)) hR
                  · by_cases h8 : c.toNat < 32
                    · have hesc : escChar c = uEsc c.toNat := by
                        simp [escChar, h1, h2, h3, h4, h5, h6, h7, h8]
                      rw [hesc]
                      simp only [uEsc, List.cons_append, List.nil_append]
                      have hpe := parseEscape_u c.toNat (escStr t ++ ('"' :: rest))
                        (by omega) (by omega) (by omega)
                      rw [Char.ofNat_toNat] at hpe
                      exact parseStringBody_esc_step _ _ _ _ _ hpe hR
                    · by_cases h9 : c.toNat < 127
                      · have hesc : escChar c = [c] := by
                          simp [escChar, h1, h2, h3, h4, h5, h6, h7, h8, h9]
                        rw [hesc]
                        simp only [List.cons_append, List.nil_append]
                        exact parseStringBody_plain_step c _ _ _ h1 h2 hR
                      · by_cases h10 : c.toNat < 65536
                        · have hval := char_valid_nat c
                          have hesc : escChar c = uEsc c.toNat := by
                            simp [escChar, h1, h2, h3, h4, h5, h6, h7, h8, h9, h10]
                          rw [hesc]
                          simp only [uEsc, List.cons_append, List.nil_append]
                          have hpe := parseEscape_u c.toNat (escStr t ++ ('"' :: rest))
                            (by omega) (by omega) (by omega)
                          rw [Char.ofNat_toNat] at hpe
                          exact parseStringBody_esc_step _ _ _ _ _ hpe hR
                        · have hval := char_valid_nat c
                          have hesc : escChar c
                              = uEsc (55296 + (c.toNat - 65536) / 1024)
                                ++ uEsc (56320 + (c.toNat - 65536) % 1024) := by
                            simp [escChar, h1, h2, h3, h4, h5, h6, h7, h8, h9, h10]
                          rw [hesc, List.append_assoc]
                          rw [show uEsc (55296 + (c.toNat - 65536) / 1024)
                              = ['\\', 'u', hexDigit ((55296 + (c.toNat - 65536) / 1024) / 4096 % 16),
                                 hexDigit ((55296 + (c.toNat - 65536) / 1024) / 256 % 16),
                                 hexDigit ((55296 + (c.toNat - 65536) / 1024) / 16 % 16),
                                 hexDigit ((55296 + (c.toNat - 65536) / 1024) % 16)] from rfl]
                          simp only [List.cons_append, List.nil_append]
                          have hpe := parseEscape_surrogates c.toNat
                            (escStr t ++ ('"' :: rest)) (by omega) (by omega)
                          rw [Char.ofNat_toNat] at hpe
                          exact parseStringBody_esc_step _ _ _ _ _ hpe hR

theorem msize_pos (v : JVal) : 1 ≤ msize v := by
  cases v <;> simp only [msize] <;> omega

theorem isDigitCh_bounds (c : Char) (h : isDigitCh c = true) :
    48 ≤ c.toNat ∧ c.toNat ≤ 57 := by
  simpa [isDigitCh] using h

theorem prVal_head (v : JVal) :
    ∃ c r, prVal v = c :: r ∧ ¬ c = ']' ∧ ¬ c = '}' := by
  cases v with
  | jnull => exact ⟨'n', ['u', 'l', 'l'], by simp only [prVal], by decide, by decide⟩
  | jbool b =>
      cases b with
      | true => exact ⟨'t', ['r', 'u', 'e'], by simp only [prVal], by decide, by decide⟩
      | false => exact ⟨'f', ['a', 'l', 's', 'e'], by simp only [prVal], by decide, by decide⟩
  | jint i =>
      cases i with
      | ofNat m =>
          obtain ⟨c, r, hnc, hdig⟩ := natToChars_head_digit m
          have hb := isDigitCh_bounds c hdig
          refine ⟨c, r, by simp only [prVal, prInt, hnc], ?_, ?_⟩
          · intro he; rw [he] at hb; exact absurd hb (by decide)
          · intro he; rw [he] at hb; exact absurd hb (by decide)
      | negSucc m =>
          exact ⟨'-', natToChars (m + 1), by simp only [prVal, prInt], by decide, by decide⟩
  | jstr s =>
      exact ⟨'"', escStr s ++ ['"'], by simp only [prVal, prStr], by decide, by decide⟩
  | jarr xs =>
      cases xs with
      | nil => exact ⟨'[', [']'], by simp only [prVal], by decide, by decide⟩
      | cons x t => exact ⟨'[', prElems x t ++ [']'], by simp only [prVal], by decide, by decide⟩
  | jobj kvs =>
      cases kvs with
      | nil => exact ⟨'{', ['}'], by simp only [prVal], by decide, by decide⟩
      | cons kv t => exact ⟨'{', prMembers kv t ++ ['}'], by simp only [prVal], by decide, by decide⟩

theorem prElems_head (x : JVal) (xs : List JVal) :
    ∃ c r, prElems x xs = c :: r ∧ ¬ c = ']' ∧ ¬ c = '}' := by
  obtain ⟨c, r, hx, h1, h2⟩ := prVal_head x
  cases xs with
  | nil => exact ⟨c, r, by simp only [prElems, hx], h1, h2⟩
  | cons y t =>
      refine ⟨c, r ++ ([',', ' '] ++ prElems y t), ?_, h1, h2⟩
      simp only [prElems, hx]
      simp

theorem prMembers_head (kv : List Char × JVal) (kvs : List (List Char × JVal)) :
    ∃ r, prMembers kv kvs = '"' :: r := by
  obtain ⟨k, v⟩ := kv
  cases kvs with
  | nil =>
      refine ⟨escStr k ++ ('"' :: (':' :: ' ' :: prVal v)), ?_⟩
      simp only [prMembers, prStr]
      simp
  | cons kv2 t =>
      refine ⟨escStr k ++ ('"' :: (':' :: ' ' :: (prVal v ++ (',' :: ' ' :: prMembers kv2 t)))), ?_⟩
      simp only [prMembers, prStr]
      simp

theorem parseVal_quote (f : Nat) (r : List Char) :
    parseVal (f + 1) ('"' :: r) = (match parseStringBody r with
      | some (s, rest) => some (.jstr s, rest)
      | none => none) := rfl

theorem parseVal_arr_cons (f : Nat) (c : Char) (r : List Char) (hc : ¬ c = ']') :
    parseVal (f + 1) ('[' :: c :: r)
      = (match parseElemsP f (c :: r) with
        | some (xs, rest) => some (.jarr xs, rest)
        | none => none) := by
  have step : parseVal (f + 1) ('[' :: c :: r)
      = if c = ']' then some (.jarr [], r)
        else match parseElemsP f (c :: r) with
          | some (xs, rest) => some (.jarr xs, rest)
          | none => none := rfl
  rw [step, if_neg hc]

theorem parseVal_obj_cons (f : Nat) (c : Char) (r : List Char) (hc : ¬ c = '}') :
    parseVal (f + 1) ('{' :: c :: r)
      = (match parseMembersP f (c :: r) with
        | some (kvs, rest) => some (.jobj (objFromPairs kvs), rest)
        | none => none) := by
  have step : parseVal (f + 1) ('{' :: c :: r)
      = if c = '}' then some (.jobj [], r)
        else match parseMembersP f (c :: r) with
          | some (kvs, rest) => some (.jobj (objFromPairs kvs), rest)
          | none => none := rfl
  rw [step, if_neg hc]

theorem parseVal_neg (f : Nat) (r : List Char) :
    parseVal (f + 1) ('-' :: r)
      = (match spanDigits r with
        | ([], _) => none
        | (ds, rest) => some (.jint (-(digitsVal ds : Int)), rest)) := rfl

theorem parseVal_digit (f : Nat) (c : Char) (r : List Char) (hd : isDigitCh c = true) :
    parseVal (f + 1) (c :: r)
      = (match spanDigits (c :: r) with
        | (ds, rest) => some (.jint (digitsVal ds), rest)) := by
  have hb := isDigitCh_bounds c hd
  simp only [parseVal]
  rw [if_neg (fun he => absurd (he ▸ hb) (by decide)),
    if_neg (fun he => absurd (he ▸ hb) (by decide)),
    if_neg (fun he => absurd (he ▸ hb) (by decide)),
    if_neg (fun he => absurd (he ▸ hb) (by decide)),
    if_neg (fun he => absurd (he ▸ hb) (by decide)),
    if_neg (fun he => absurd (he ▸ hb) (by decide)),
    if_neg (fun he => absurd (he ▸ hb) (by decide)),
    if_pos hd]


theorem parseElemsP_last (g : Nat) (v : JVal) (inp r2 : List Char)
    (h1 : parseVal g inp = some (v, ']' :: r2)) :
    parseElemsP (g + 1) inp = some ([v], r2) := by
  simp only [parseElemsP]
  rw [h1]
  rfl

theorem parseElemsP_cons (g : Nat) (v : JVal) (inp r2 : List Char)
    (vs : List JVal) (rest : List Char)
    (h1 : parseVal g inp = some (v, ',' :: ' ' :: r2))
    (h2 : parseElemsP g r2 = some (vs, rest)) :
    parseElemsP (g + 1) inp = some (v :: vs, rest) := by
  have step : parseElemsP (g + 1) inp
      = (match parseElemsP g r2 with
        | some (vs2, rest2) => some (v :: vs2, rest2)
        | none => none) := by
    simp only [parseElemsP]
    rw [h1]
    rfl
  rw [step, h2]

theorem parseMembersP_last (g : Nat) (k : List Char) (v : JVal) (r r3 r5 : List Char)
    (hs : parseStringBody r = some (k, ':' :: ' ' :: r3))
    (hv : parseVal g r3 = some (v, '}' :: r5)) :
    parseMembersP (g + 1) ('"' :: r) = some ([(k, v)], r5) := by
  have step : parseMembersP (g + 1) ('"' :: r)
      = (match parseVal g r3 with
        | none => none
        | some (v2, r4) =>
          match r4 with
          | '}' :: r5 => some ([(k, v2)], r5)
          | ',' :: ' ' :: r5 =>
            (match parseMembersP g r5 with
             | some (kvs, rest) => some ((k, v2) :: kvs, rest)
             | none => none)
          | _ => none) := by
    simp only [parseMembersP]
    rw [hs]
    rfl
  rw [step, hv]
  rfl

theorem parseMembersP_cons (g : Nat) (k : List Char) (v : JVal) (r r3 r5 : List Char)
    (kvs : List (List Char × JVal)) (rest : List Char)
    (hs : parseStringBody r = some (k, ':' :: ' ' :: r3))
    (hv : parseVal g r3 = some (v, ',' :: ' ' :: r5))
    (hm : parseMembersP g r5 = some (kvs, rest)) :
    parseMembersP (g + 1) ('"' :: r) = some ((k, v) :: kvs, rest) := by
  have step : parseMembersP (g + 1) ('"' :: r)
      = (match parseVal g r3 with
        | none => none
        | some (v2, r4) =>
          match r4 with
          | '}' :: r5 => some ([(k, v2)], r5)
          | ',' :: ' ' :: r5 =>
            (match parseMembersP g r5 with
             | some (kvs, rest) => some ((k, v2) :: kvs, rest)
             | none => none)
          | _ => none) := by
    simp only [parseMembersP]
    rw [hs]
    rfl
  have step2 : parseMembersP (g + 1) ('"' :: r)
      = (match parseMembersP g r5 with
        | some (kvs2, rest2) => some ((k, v) :: kvs2, rest2)
        | none => none) := by
    rw [step, hv]
    rfl
  rw [step2, hm]


/-- The printer/parser round-trip, by strong induction on the tree size:
values, nonempty element lists, and nonempty member lists at once. -/
theorem parse_pr_main : ∀ n : Nat,
    (∀ v R fuel, msize v ≤ n → jwf v = true → notDigitStart R = true →
      2 * msize v ≤ fuel → parseVal fuel (prVal v ++ R) = some (v, R))
    ∧ (∀ x xs R fuel, msizeL (x :: xs) ≤ n → jwfL (x :: xs) = true →
      2 * msizeL (x :: xs) < fuel →
      parseElemsP fuel (prElems x xs ++ (']' :: R)) = some (x :: xs, R))
    ∧ (∀ kv kvs R fuel, msizeO (kv :: kvs) ≤ n → jwfO (kv :: kvs) = true →
      2 * msizeO (kv :: kvs) < fuel →
      parseMembersP fuel (prMembers kv kvs ++ ('}' :: R)) = some (kv :: kvs, R)) := by
  intro n
  induction n using Nat.strong_induction_on with
  | _ n ih =>
    have hP : ∀ v R fuel, msize v ≤ n → jwf v = true → notDigitStart R = true →
        2 * msize v ≤ fuel → parseVal fuel (prVal v ++ R) = some (v, R) := by
      intro v R fuel hn hwf hnd hfuel
      have hpos := msize_pos v
      cases fuel with
      | zero => omega
      | succ f =>
        cases v with
        | jnull =>
            simp only [prVal, List.cons_append, List.nil_append]
            rfl
        | jbool b =>
            cases b with
            | true =>
                simp only [prVal, List.cons_append, List.nil_append]
                rfl
            | false =>
                simp only [prVal, List.cons_append, List.nil_append]
                rfl
        | jstr s =>
            simp only [prVal, prStr, List.cons_append, List.append_assoc,
              List.singleton_append, List.nil_append]
            rw [parseVal_quote, parseStringBody_escStr s R]
        | jint i =>
            cases i with
            | ofNat m =>
                simp only [prVal, prInt]
                obtain ⟨c, r, hnc, hdig⟩ := natToChars_head_digit m
                rw [hnc]
                simp only [List.cons_append]
                rw [parseVal_digit f c (r ++ R) hdig]
                have hall := (natToChars_digits m).2
                rw [hnc] at hall
                simp only [List.all_cons, Bool.and_eq_true] at hall
                have hspan : spanDigits (c :: (r ++ R)) = (c :: r, R) := by
                  have hs2 := spanDigits_append (c :: r) R
                    (by simp only [List.all_cons, Bool.and_eq_true]; exact hall) hnd
                  simpa using hs2
                rw [hspan]
                have hdv : digitsVal (c :: r) = m := by
                  rw [← hnc]; exact digitsVal_natToChars m
                show some (JVal.jint (digitsVal (c :: r) : Int), R)
                  = some (JVal.jint (Int.ofNat m), R)
                rw [hdv]
                rfl
            | negSucc m =>
                simp only [prVal, prInt, List.cons_append]
                rw [parseVal_neg]
                obtain ⟨c, r, hnc, hdig⟩ := natToChars_head_digit (m + 1)
                have hall := (natToChars_digits (m + 1)).2
                have hspan : spanDigits (natToChars (m + 1) ++ R)
                    = (natToChars (m + 1), R) := spanDigits_append _ R hall hnd
                rw [hspan, hnc]
                have hdv : digitsVal (c :: r) = m + 1 := by
                  rw [← hnc]; exact digitsVal_natToChars (m + 1)
                show some (JVal.jint (-(digitsVal (c :: r) : Int)), R)
                  = some (JVal.jint (Int.negSucc m), R)
                rw [hdv]
                congr 2
        | jarr xs =>
            cases xs with
            | nil =>
                simp only [prVal, List.cons_append, List.nil_append]
                rfl
            | cons x t =>
                simp only [prVal, List.cons_append, List.append_assoc,
                  List.singleton_append, List.nil_append]
                obtain ⟨c, r2, hel, hne1, _⟩ := prElems_head x t
                rw [hel]
                simp only [List.cons_append]
                rw [parseVal_arr_cons f c _ hne1]
                rw [show c :: (r2 ++ (']' :: R)) = prElems x t ++ (']' :: R) by
                  rw [hel]; simp]
                simp only [msize] at hn hfuel
                have hE := (ih (msizeL (x :: t)) (by omega)).2.1 x t R f (le_refl _)
                  (by simpa only [jwf] using hwf) (by omega)
                rw [hE]
        | jobj kvs =>
            cases kvs with
            | nil =>
                simp only [prVal, List.cons_append, List.nil_append]
                rfl
            | cons kv t =>
                simp only [prVal, List.cons_append, List.append_assoc,
                  List.singleton_append, List.nil_append]
                obtain ⟨rm, hmem⟩ := prMembers_head kv t
                rw [hmem]
                simp only [List.cons_append]
                rw [parseVal_obj_cons f '"' _ (by decide)]
                rw [show ('"' : Char) :: (rm ++ ('}' :: R)) = prMembers kv t ++ ('}' :: R) by
                  rw [hmem]; simp]
                simp only [jwf, Bool.and_eq_true] at hwf
                simp only [msize] at hn hfuel
                have hO := (ih (msizeO (kv :: t)) (by omega)).2.2 kv t R f (le_refl _)
                  hwf.2 (by omega)
                rw [hO]
                show some (JVal.jobj (objFromPairs (kv :: t)), R)
                  = some (JVal.jobj (kv :: t), R)
                rw [objFromPairs_id (kv :: t) hwf.1]
    refine ⟨hP, ?_, ?_⟩
    · intro x xs R fuel hn2 hwf2 hfuel2
      cases fuel with
      | zero => omega
      | succ g =>
        simp only [jwfL, Bool.and_eq_true] at hwf2
        cases xs with
        | nil =>
            simp only [prElems]
            simp only [msizeL] at hn2 hfuel2
            have hx := hP x (']' :: R) g (by omega) hwf2.1 rfl (by omega)
            exact parseElemsP_last g x _ R hx
        | cons y t =>
            simp only [prElems, List.append_assoc, List.cons_append, List.nil_append]
            simp only [msizeL] at hn2 hfuel2
            have hpx := msize_pos x
            have hpy := msize_pos y
            have h1 := hP x (',' :: ' ' :: (prElems y t ++ (']' :: R))) g
              (by omega) hwf2.1 rfl (by omega)
            have h2 := (ih (msize y + msizeL t) (by omega)).2.1 y t R g
              (by simp only [msizeL]; omega) hwf2.2 (by simp only [msizeL]; omega)
            exact parseElemsP_cons g x _ _ (y :: t) R h1 h2
    · intro kv kvs R fuel hn2 hwf2 hfuel2
      obtain ⟨k, v⟩ := kv
      cases fuel with
      | zero => omega
      | succ g =>
        simp only [jwfO, Bool.and_eq_true] at hwf2
        cases kvs with
        | nil =>
            simp only [prMembers, prStr, List.append_assoc, List.cons_append,
              List.nil_append]
            simp only [msizeO] at hn2 hfuel2
            have hv := hP v ('}' :: R) g (by omega) hwf2.1 rfl (by omega)
            exact parseMembersP_last g k v _ _ R
              (parseStringBody_escStr k (':' :: ' ' :: (prVal v ++ ('}' :: R)))) hv
        | cons kv2 t =>
            simp only [prMembers, prStr, List.append_assoc, List.cons_append,
              List.nil_append]
            simp only [msizeO] at hn2 hfuel2
            have hpv := msize_pos v
            have hp2 := msize_pos kv2.2
            have h1 := hP v (',' :: ' ' :: (prMembers kv2 t ++ ('}' :: R))) g
              (by omega) hwf2.1 rfl (by omega)
            have h2 := (ih (msizeO (kv2 :: t)) (by simp only [msizeO]; omega)).2.2 kv2 t R g
              (le_refl _) hwf2.2 (by simp only [msizeO]; omega)
            exact parseMembersP_cons g k v _ _ _ (kv2 :: t) R
              (parseStringBody_escStr k
                (':' :: ' ' :: (prVal v ++ (',' :: ' ' :: (prMembers kv2 t ++ ('}' :: R))))))
              h1 h2


/-- Fuel bound: the printed form is long enough that `length + 1` fuel
always suffices. -/
theorem prVal_length_main : ∀ n : Nat,
    (∀ v, msize v ≤ n → 2 * msize v ≤ (prVal v).length + 1)
    ∧ (∀ x xs, msizeL (x :: xs) ≤ n →
        2 * msizeL (x :: xs) ≤ (prElems x xs).length + 1)
    ∧ (∀ kv kvs, msizeO (kv :: kvs) ≤ n →
        2 * msizeO (kv :: kvs) ≤ (prMembers kv kvs).length + 1) := by
  intro n
  induction n using Nat.strong_induction_on with
  | _ n ih =>
    have hV : ∀ v, msize v ≤ n → 2 * msize v ≤ (prVal v).length + 1 := by
      intro v hn
      cases v with
      | jnull => simp [prVal, msize]
      | jbool b => cases b <;> simp [prVal, msize]
      | jstr s => simp [prVal, prStr, msize]
      | jint i =>
          cases i with
          | ofNat m =>
              obtain ⟨c, r, hnc, _⟩ := natToChars_head_digit m
              simp [prVal, prInt, hnc, msize]
          | negSucc m => simp [prVal, prInt, msize]
      | jarr xs =>
          cases xs with
          | nil => simp [prVal, msize, msizeL]
          | cons x t =>
              simp only [msize] at hn ⊢
              have hL := (ih (msizeL (x :: t)) (by omega)).2.1 x t (le_refl _)
              simp only [prVal, List.length_cons, List.length_append]
              simp only [List.length_cons, List.length_nil]
              omega
      | jobj kvs =>
          cases kvs with
          | nil => simp [prVal, msize, msizeO]
          | cons kv t =>
              simp only [msize] at hn ⊢
              have hO := (ih (msizeO (kv :: t)) (by omega)).2.2 kv t (le_refl _)
              simp only [prVal, List.length_cons, List.length_append]
              simp only [List.length_cons, List.length_nil]
              omega
    refine ⟨hV, ?_, ?_⟩
    · intro x xs hn
      cases xs with
      | nil =>
          simp only [prElems, msizeL]
          have := hV x (by simp only [msizeL] at hn; omega)
          omega
      | cons y t =>
          simp only [prElems, msizeL] at hn ⊢
          have hpx := msize_pos x
          have h1 := hV x (by omega)
          have h2 := (ih (msize y + msizeL t) (by omega)).2.1 y t
            (by simp only [msizeL]; omega)
          simp only [msizeL] at h2
          simp only [List.length_append, List.length_cons, List.length_nil]
          omega
    · intro kv kvs hn
      obtain ⟨k, v⟩ := kv
      cases kvs with
      | nil =>
          simp only [prMembers, msizeO]
          have := hV v (by simp only [msizeO] at hn; omega)
          simp only [List.length_append, List.length_cons, List.length_nil]
          omega
      | cons kv2 t =>
          simp only [prMembers, msizeO] at hn ⊢
          have hpv := msize_pos v
          have hp2 := msize_pos kv2.2
          have h1 := hV v (by omega)
          have h2 := (ih (msizeO (kv2 :: t)) (by simp only [msizeO]; omega)).2.2 kv2 t
            (le_refl _)
          simp only [msizeO] at h2
          simp only [List.length_append, List.length_cons, List.length_nil]
          omega

/-- `json.loads (json.dumps v) == v` for every well-formed value. -/
theorem json_loads_dumps (v : JVal) (h : jwf v = true) :
    json_loads (json_dumps v) = some v := by
  unfold json_loads json_dumps
  have hfuel : 2 * msize v ≤ (prVal v).length + 1 :=
    (prVal_length_main (msize v)).1 v (le_refl _)
  have h1 := (parse_pr_main (msize v)).1 v [] ((prVal v).length + 1)
    (le_refl _) h rfl hfuel
  rw [List.append_nil] at h1
  rw [h1]


theorem hexDigit_ascii (n : Nat) (h : n < 16) : (hexDigit n).toNat < 128 := by
  interval_cases n <;> decide

theorem uEsc_ascii (n : Nat) : ∀ ch ∈ uEsc n, ch.toNat < 128 := by
  intro ch hch
  simp only [uEsc, List.mem_cons, List.not_mem_nil, or_false] at hch
  rcases hch with h | h | h | h | h | h
  · subst h; decide
  · subst h; decide
  · subst h; exact hexDigit_ascii _ (Nat.mod_lt _ (by omega))
  · subst h; exact hexDigit_ascii _ (Nat.mod_lt _ (by omega))
  · subst h; exact hexDigit_ascii _ (Nat.mod_lt _ (by omega))
  · subst h; exact hexDigit_ascii _ (Nat.mod_lt _ (by omega))

theorem escChar_ascii (c : Char) : ∀ ch ∈ escChar c, ch.toNat < 128 := by
  have two : ∀ a b : Char, a.toNat < 128 → b.toNat < 128 →
      ∀ ch ∈ ([a, b] : List Char), ch.toNat < 128 := by
    intro a b ha hb ch hch
    simp only [List.mem_cons, List.not_mem_nil, or_false] at hch
    rcases hch with h | h <;> (subst h; assumption)
  intro ch hch
  by_cases h1 : c = '"'
  · rw [show escChar c = ['\\', '"'] by rw [h1] at hch ⊢; rfl] at hch
    exact two _ _ (by decide) (by decide) ch hch
  · by_cases h2 : c = '\\'
    · rw [show escChar c = ['\\', '\\'] by rw [h2]; rfl] at hch
      exact two _ _ (by decide) (by decide) ch hch
    · by_cases h3 : c = '\n'
      · rw [show escChar c = ['\\', 'n'] by rw [h3]; rfl] at hch
        exact two _ _ (by decide) (by decide) ch hch
      · by_cases h4 : c = '\r'
        · rw [show escChar c = ['\\', 'r'] by rw [h4]; rfl] at hch
          exact two _ _ (by decide) (by decide) ch hch
        · by_cases h5 : c = '\t'
          · rw [show escChar c = ['\\', 't'] by rw [h5]; rfl] at hch
            exact two _ _ (by decide) (by decide) ch hch
          · by_cases h6 : c.toNat = 8
            · rw [show escChar c = ['\\', 'b'] by simp [escChar, h1, h2, h3, h4, h5, h6]] at hch
              exact two _ _ (by decide) (by decide) ch hch
            · by_cases h7 : c.toNat = 12
              · rw [show escChar c = ['\\', 'f'] by
                  simp [escChar, h1, h2, h3, h4, h5, h6, h7]] at hch
                exact two _ _ (by decide) (by decide) ch hch
              · by_cases h8 : c.toNat < 32
                · rw [show escChar c = uEsc c.toNat by
                    simp [escChar, h1, h2, h3, h4, h5, h6, h7, h8]] at hch
                  exact uEsc_ascii _ ch hch
                · by_cases h9 : c.toNat < 127
                  · rw [show escChar c = [c] by
                      simp [escChar, h1, h2, h3, h4, h5, h6, h7, h8, h9]] at hch
                    simp only [List.mem_cons, List.not_mem_nil, or_false] at hch
                    subst hch
                    omega
                  · by_cases h10 : c.toNat < 65536
                    · rw [show escChar c = uEsc c.toNat by
                        simp [escChar, h1, h2, h3, h4, h5, h6, h7, h8, h9, h10]] at hch
                      exact uEsc_ascii _ ch hch
                    · rw [show escChar c
                          = uEsc (55296 + (c.toNat - 65536) / 1024)
                            ++ uEsc (56320 + (c.toNat - 65536) % 1024) by
                        simp [escChar, h1, h2, h3, h4, h5, h6, h7, h8, h9, h10]] at hch
                      rcases List.mem_append.mp hch with h | h
                      · exact uEsc_ascii _ ch h
                      · exact uEsc_ascii _ ch h

theorem escStr_ascii (s : List Char) : ∀ ch ∈ escStr s, ch.toNat < 128 := by
  induction s with
  | nil => intro ch hch; simp [escStr] at hch
  | cons c t ih =>
      intro ch hch
      simp only [escStr] at hch
      rcases List.mem_append.mp hch with h | h
      · exact escChar_ascii c ch h
      · exact ih ch h

theorem prStr_ascii (s : List Char) : ∀ ch ∈ prStr s, ch.toNat < 128 := by
  intro ch hch
  simp only [prStr, List.mem_cons] at hch
  rcases hch with h | h
  · subst h; decide
  · rcases List.mem_append.mp h with h2 | h2
    · exact escStr_ascii s ch h2
    · simp only [List.mem_cons, List.not_mem_nil, or_false] at h2
      subst h2; decide

theorem natToChars_ascii (n : Nat) : ∀ ch ∈ natToChars n, ch.toNat < 128 := by
  intro ch hch
  have hall := (natToChars_digits n).2
  rw [List.all_eq_true] at hall
  have := isDigitCh_bounds ch (hall ch hch)
  omega

theorem prInt_ascii (i : Int) : ∀ ch ∈ prInt i, ch.toNat < 128 := by
  intro ch hch
  cases i with
  | ofNat m => exact natToChars_ascii m ch hch
  | negSucc m =>
      simp only [prInt, List.mem_cons] at hch
      rcases hch with h | h
      · subst h; decide
      · exact natToChars_ascii (m + 1) ch h

/-- `json.dumps` with `ensure_ascii=True` emits pure ASCII. -/
theorem prVal_ascii_main : ∀ n : Nat,
    (∀ v, msize v ≤ n → ∀ ch ∈ prVal v, ch.toNat < 128)
    ∧ (∀ x xs, msizeL (x :: xs) ≤ n → ∀ ch ∈ prElems x xs, ch.toNat < 128)
    ∧ (∀ kv kvs, msizeO (kv :: kvs) ≤ n → ∀ ch ∈ prMembers kv kvs, ch.toNat < 128) := by
  intro n
  induction n using Nat.strong_induction_on with
  | _ n ih =>
    have hV : ∀ v, msize v ≤ n → ∀ ch ∈ prVal v, ch.toNat < 128 := by
      intro v hn ch hch
      cases v with
      | jnull =>
          simp only [prVal, List.mem_cons, List.not_mem_nil, or_false] at hch
          rcases hch with h | h | h | h <;> (subst h; decide)
      | jbool b =>
          cases b with
          | true =>
              simp only [prVal, List.mem_cons, List.not_mem_nil, or_false] at hch
              rcases hch with h | h | h | h <;> (subst h; decide)
          | false =>
              simp only [prVal, List.mem_cons, List.not_mem_nil, or_false] at hch
              rcases hch with h | h | h | h | h <;> (subst h; decide)
      | jint i =>
          simp only [prVal] at hch
          exact prInt_ascii i ch hch
      | jstr s =>
          simp only [prVal] at hch
          exact prStr_ascii s ch hch
      | jarr xs =>
          cases xs with
          | nil =>
              simp only [prVal, List.mem_cons, List.not_mem_nil, or_false] at hch
              rcases hch with h | h <;> (subst h; decide)
          | cons x t =>
              simp only [prVal, List.mem_cons] at hch
              rcases hch with h | h
              · subst h; decide
              · rcases List.mem_append.mp h with h2 | h2
                · simp only [msize] at hn
                  exact (ih (msizeL (x :: t)) (by omega)).2.1 x t (le_refl _) ch h2
                · simp only [List.mem_cons, List.not_mem_nil, or_false] at h2
                  subst h2; decide
      | jobj kvs =>
          cases kvs with
          | nil =>
              simp only [prVal, List.mem_cons, List.not_mem_nil, or_false] at hch
              rcases hch with h | h <;> (subst h; decide)
          | cons kv t =>
              simp only [prVal, List.mem_cons] at hch
              rcases hch with h | h
              · subst h; decide
              · rcases List.mem_append.mp h with h2 | h2
                · simp only [msize] at hn
                  exact (ih (msizeO (kv :: t)) (by omega)).2.2 kv t (le_refl _) ch h2
                · simp only [List.mem_cons, List.not_mem_nil, or_false] at h2
                  subst h2; decide
    refine ⟨hV, ?_, ?_⟩
    · intro x xs hn ch hch
      cases xs with
      | nil =>
          simp only [prElems] at hch
          exact hV x (by simp only [msizeL] at hn; omega) ch hch
      | cons y t =>
          simp only [prElems] at hch
          simp only [msizeL] at hn
          have hpx := msize_pos x
          rcases List.mem_append.mp hch with h | h
          · rcases List.mem_append.mp h with h2 | h2
            · exact hV x (by omega) ch h2
            · simp only [List.mem_cons, List.not_mem_nil, or_false] at h2
              rcases h2 with h3 | h3 <;> (subst h3; decide)
          · exact (ih (msize y + msizeL t) (by omega)).2.1 y t
              (by simp only [msizeL]; omega) ch h
    · intro kv kvs hn ch hch
      obtain ⟨k, v⟩ := kv
      cases kvs with
      | nil =>
          simp only [prMembers] at hch
          simp only [msizeO] at hn
          rcases List.mem_append.mp hch with h | h
          · rcases List.mem_append.mp h with h2 | h2
            · exact prStr_ascii k ch h2
            · simp only [List.mem_cons, List.not_mem_nil, or_false] at h2
              rcases h2 with h3 | h3 <;> (subst h3; decide)
          · exact hV v (by omega) ch h
      | cons kv2 t =>
          simp only [prMembers] at hch
          simp only [msizeO] at hn
          have hpv := msize_pos v
          have hp2 := msize_pos kv2.2
          rcases List.mem_append.mp hch with h | h
          · rcases List.mem_append.mp h with h2 | h2
            · rcases List.mem_append.mp h2 with h3 | h3
              · rcases List.mem_append.mp h3 with h4 | h4
                · exact prStr_ascii k ch h4
                · simp only [List.mem_cons, List.not_mem_nil, or_false] at h4
                  rcases h4 with h5 | h5 <;> (subst h5; decide)
              · exact hV v (by omega) ch h3
            · simp only [List.mem_cons, List.not_mem_nil, or_false] at h2
              rcases h2 with h3 | h3 <;> (subst h3; decide)
          · exact (ih (msizeO (kv2 :: t)) (by simp only [msizeO]; omega)).2.2 kv2 t
              (le_refl _) ch h

theorem prVal_ascii (v : JVal) : ∀ ch ∈ prVal v, ch.toNat < 128 :=
  (prVal_ascii_main (msize v)).1 v (le_refl _)


/-- `str.encode()` (UTF-8) on the ASCII output of `json.dumps`: one byte per
character, the code point itself. -/
def strToBytes (s : List Char) : List Nat := s.map Char.toNat

/-- `bytes.decode()` back to characters. -/
def bytesToStr (bs : List Nat) : List Char := bs.map Char.ofNat

theorem bytesToStr_strToBytes (s : List Char) : bytesToStr (strToBytes s) = s := by
  induction s with
  | nil => rfl
  | cons c t ih => simp [strToBytes, bytesToStr, Char.ofNat_toNat] at ih ⊢; exact ih

/-- The standard base64 alphabet (RFC 4648, as `base64.b64encode` uses). -/
def b64alphabet : List Char :=
  ['A', 'B', 'C', 'D', 'E', 'F', 'G', 'H', 'I', 'J', 'K', 'L', 'M',
   'N', 'O', 'P', 'Q', 'R', 'S', 'T', 'U', 'V', 'W', 'X', 'Y', 'Z',
   'a', 'b', 'c', 'd', 'e', 'f', 'g', 'h', 'i', 'j', 'k', 'l', 'm',
   'n', 'o', 'p', 'q', 'r', 's', 't', 'u', 'v', 'w', 'x', 'y', 'z',
   '0', '1', '2', '3', '4', '5', '6', '7', '8', '9', '+', '/']

def b64ch (n : Nat) : Char := b64alphabet.getD n 'A'

def b64val (c : Char) : Nat := b64alphabet.findIdx (· == c)

/-- `base64.b64encode`: three bytes to four sextet characters, `=`-padded. -/
def b64encode : List Nat → List Char
  | [] => []
  | [b1] => [b64ch (b1 / 4), b64ch (b1 % 4 * 16), '=', '=']
  | [b1, b2] => [b64ch (b1 / 4), b64ch (b1 % 4 * 16 + b2 / 16),
      b64ch (b2 % 16 * 4), '=']
  | b1 :: b2 :: b3 :: t =>
      b64ch (b1 / 4) :: b64ch (b1 % 4 * 16 + b2 / 16)
        :: b64ch (b2 % 16 * 4 + b3 / 64) :: b64ch (b3 % 64) :: b64encode t

/-- `base64.b64decode` on canonical encodings: four characters to three
bytes, fewer at an `=`-padded tail. -/
def b64decode : List Char → List Nat
  | c1 :: c2 :: c3 :: c4 :: t =>
      if c3 = '=' then [b64val c1 * 4 + b64val c2 / 16]
      else if c4 = '=' then
        [b64val c1 * 4 + b64val c2 / 16, b64val c2 % 16 * 16 + b64val c3 / 4]
      else (b64val c1 * 4 + b64val c2 / 16)
        :: (b64val c2 % 16 * 16 + b64val c3 / 4)
        :: (b64val c3 % 4 * 64 + b64val c4) :: b64decode t
  | _ => []

theorem b64val_b64ch (n : Nat) (h : n < 64) : b64val (b64ch n) = n := by
  interval_cases n <;> rfl

theorem b64ch_ne_pad (n : Nat) (h : n < 64) : ¬ b64ch n = '=' := by
  interval_cases n <;> decide

theorem b64decode_encode (bs : List Nat) (hb : ∀ b ∈ bs, b < 256) :
    b64decode (b64encode bs) = bs := by
  induction bs using b64encode.induct with
  | case1 => rfl
  | case2 b1 =>
      have hb1 : b1 < 256 := hb b1 (by simp)
      simp only [b64encode, b64decode]
      rw [if_pos trivial]
      rw [b64val_b64ch _ (by omega), b64val_b64ch _ (by omega)]
      have e : b1 / 4 * 4 + b1 % 4 * 16 / 16 = b1 := by omega
      rw [e]
  | case3 b1 b2 =>
      have hb1 : b1 < 256 := hb b1 (by simp)
      have hb2 : b2 < 256 := hb b2 (by simp)
      simp only [b64encode, b64decode]
      rw [if_neg (b64ch_ne_pad _ (by omega)), if_pos trivial]
      rw [b64val_b64ch _ (by omega), b64val_b64ch _ (by omega),
        b64val_b64ch _ (by omega)]
      have e1 : b1 / 4 * 4 + (b1 % 4 * 16 + b2 / 16) / 16 = b1 := by omega
      have e2 : (b1 % 4 * 16 + b2 / 16) % 16 * 16 + b2 % 16 * 4 / 4 = b2 := by omega
      rw [e1, e2]
  | case4 b1 b2 b3 t ih =>
      have hb1 : b1 < 256 := hb b1 (by simp)
      have hb2 : b2 < 256 := hb b2 (by simp)
      have hb3 : b3 < 256 := hb b3 (by simp)
      have iht := ih (fun b hbm => hb b (by simp [hbm]))
      simp only [b64encode, b64decode]
      rw [if_neg (b64ch_ne_pad _ (by omega)), if_neg (b64ch_ne_pad _ (by omega))]
      rw [b64val_b64ch _ (by omega), b64val_b64ch _ (by omega),
        b64val_b64ch _ (by omega), b64val_b64ch _ (by omega)]
      rw [iht]
      have e1 : b1 / 4 * 4 + (b1 % 4 * 16 + b2 / 16) / 16 = b1 := by omega
      have e2 : (b1 % 4 * 16 + b2 / 16) % 16 * 16 + (b2 % 16 * 4 + b3 / 64) / 4 = b2 := by
        omega
      have e3 : (b2 % 16 * 4 + b3 / 64) % 4 * 64 + b3 % 64 = b3 := by omega
      rw [e1, e2, e3]

/-- `EncryptionService.encrypt_credentials`: `json.dumps`, UTF-8 encode,
Fernet-encrypt (`fe`, abstract: keyed by the process-wide secret), then
`base64.b64encode` to a storage string. -/
def encrypt_credentials (fe : List Nat → List Nat) (c : JVal) : List Char :=
  b64encode (fe (strToBytes (json_dumps c)))

/-- `EncryptionService.decrypt_credentials`: `base64.b64decode`,
Fernet-decrypt (`fd`), UTF-8 decode, `json.loads`. -/
def decrypt_credentials (fd : List Nat → List Nat) (s : List Char) : Option JVal :=
  json_loads (bytesToStr (fd (b64decode s)))

theorem strToBytes_dumps_bytes (v : JVal) :
    ∀ b ∈ strToBytes (json_dumps v), b < 256 := by
  intro b hbm
  simp only [strToBytes, List.mem_map] at hbm
  obtain ⟨ch, hch, hco⟩ := hbm
  have := prVal_ascii v ch hch
  omega


/-- C2: Credential Vault round-trip: for every JSON-serializable credential
dictionary `c` (a well-formed `JVal`), with the Fernet cipher abstracted as a
byte-level encrypt/decrypt pair that inverts on this token,
`decrypt_credentials (encrypt_credentials c) = c` — the encrypt/decrypt pair
is a lossless round-trip identity. -/
theorem credential_vault_roundtrip (fe fd : List Nat → List Nat) (c : JVal)
    (hwf : jwf c = true)
    (hbytes : ∀ b ∈ fe (strToBytes (json_dumps c)), b < 256)
    (hfernet : fd (fe (strToBytes (json_dumps c))) = strToBytes (json_dumps c)) :
    decrypt_credentials fd (encrypt_credentials fe c) = some c := by
  unfold decrypt_credentials encrypt_credentials
  rw [b64decode_encode _ hbytes, hfernet, bytesToStr_strToBytes]
  exact json_loads_dumps c hwf

def w2Cred : JVal :=
  .jobj [(['a', 'c', 'c', 'e', 's', 's'], .jstr ['t', 'o', 'k']),
         (['n'], .jint 42)]

theorem credential_vault_roundtrip_witness :
    jwf w2Cred = true
    ∧ decrypt_credentials id (encrypt_credentials id w2Cred) = some w2Cred :=
  ⟨rfl, credential_vault_roundtrip id id w2Cred rfl
    (fun b hb => strToBytes_dumps_bytes w2Cred b hb) rfl⟩

end VoicePlatform
